import Mathlib

/-!
# Verification of the watchdogs incident pipeline (src/server.js)

A shallow embedding of the core incident-anchoring and synthesis pipeline of
the repository: location extraction, topic tagging, post clustering
(`anchorIncidentsToLocations`), metrics and scoring (`analyzeSentiment`,
`calculateTotalEngagement`, `determineSeverity`), narrative synthesis
(`generateTLDR`), the low-engagement filter, the reliability gate and the
final severity/engagement sort of `fetchRealTimeIncidents`.

Modelling conventions:
* JS strings are `String`; all character processing happens on `String.data`
  (`List Char`), because only list recursion evaluates inside the kernel.
  All text in the pipeline is ASCII, so `Char.toLower` agrees with
  JS `toLowerCase`.
* JS numbers: engagement counts are `Nat`; timestamps are `Int` milliseconds
  (the value of `new Date(x).getTime()`).  Confidence scores (0.95, 0.75, …)
  are kept in exact hundredths as `Nat` (95, 75, …); every comparison the
  source performs on them (`< 0.5`, `> 0.8`) is against a one-digit decimal,
  so exact hundredth arithmetic agrees with the JS float comparison.
  The sentiment confidence `max/total` is kept as the exact pair
  (numerator, denominator); the source's `> 0.6` test is performed by the
  exact cross-multiplied test `10*num > 6*den`, which agrees with the float
  division for any realistic cluster size.
* The 24-hour recency test `Math.abs(t1-t2)/(1000*60*60) > 24` is modelled by
  the exact equivalent `|t1-t2| > 24*1000*60*60` on `Int`.
-/

/-! ## String helpers (JS `String.prototype.includes`, `toLowerCase`) -/

/-- `listHasSub l sub` decides whether `sub` occurs as a contiguous substring
of `l`.  This is JS `String.prototype.includes` at the character level. -/
def listHasSub (l sub : List Char) : Bool :=
  match l with
  | [] => sub.isEmpty
  | _ :: t => sub.isPrefixOf l || listHasSub t sub

/-- The characters of a JS string after `toLowerCase` (ASCII). -/
def lowerData (s : String) : List Char :=
  s.data.map Char.toLower

/-- JS `s.includes(sub)` (case-sensitive). -/
def strIncludes (s sub : String) : Bool :=
  listHasSub s.data sub.data

/-- JS `s.toLowerCase().includes(kw)` where `kw` is a literal that is already
lower-case in the source. -/
def lcIncludes (s kw : String) : Bool :=
  listHasSub (lowerData s) kw.data

theorem listHasSub_correct (l sub : List Char) :
    listHasSub l sub = true ↔ sub <:+: l := by
  induction l with
  | nil =>
    constructor
    · intro h
      have hsub : sub = [] := List.isEmpty_iff.mp h
      subst hsub
      exact ⟨[], [], rfl⟩
    · intro h
      have hsub : sub = [] := List.eq_nil_of_infix_nil h
      simp [listHasSub, hsub]
  | cons c t ih =>
    simp only [listHasSub, Bool.or_eq_true, List.isPrefixOf_iff_prefix, ih]
    constructor
    · rintro (h | h)
      · exact h.isInfix
      · rcases h with ⟨s, u, hsu⟩
        exact ⟨c :: s, u, by simp [← hsu]⟩
    · rintro ⟨s, u, hsu⟩
      cases s with
      | nil => left; exact ⟨u, by simpa using hsu⟩
      | cons x s' =>
        right
        have h3 : x :: (s' ++ sub ++ u) = c :: t := by simpa using hsu
        exact ⟨s', u, (List.cons.injEq x _ c t ▸ h3).2⟩

/-! ## Data model (`XPost`, src/server.js wire mapping) -/

/-- Engagement counts of a post.  `views` is optional in the source
(`views?: number`); a missing value behaves as `0` in every use site
(`engagement.views > 0`, `(post.engagement.views || 0)`), so it is a plain
`Nat` here. -/
structure Engagement where
  likes : Nat
  retweets : Nat
  replies : Nat
  quotes : Nat
  views : Nat
  deriving Repr, DecidableEq

/-- Post author. -/
structure Author where
  username : String
  name : String
  verified : Bool
  deriving Repr, DecidableEq

/-- A social-media post as consumed by the core (src/server.js `XPost`).
`timestamp` is the epoch-millisecond value of `new Date(p.timestamp).getTime()`. -/
structure XPost where
  id : String
  text : String
  author : Author
  url : String
  timestamp : Int
  engagement : Engagement
  deriving Repr, DecidableEq

/-! ## `filterLowEngagementPosts` (src/server.js lines 1040-1049) -/

/-- Keep posts that have at least some engagement
(`likes > 0 || retweets > 0 || replies > 0 || views > 0`).
Note the source does NOT test `quotes`. -/
def filterLowEngagementPosts (posts : List XPost) : List XPost :=
  posts.filter fun post =>
    let engagement := post.engagement
    engagement.likes > 0 || engagement.retweets > 0 ||
      engagement.replies > 0 || engagement.views > 0

/-! ## `calculateTotalEngagement` (src/server.js lines 580-594) -/

structure TotalEngagement where
  totalLikes : Nat
  totalRetweets : Nat
  totalReplies : Nat
  totalQuotes : Nat
  totalViews : Nat
  deriving Repr, DecidableEq

/-- Fold of the source's `posts.reduce` with all accumulators starting at 0. -/
def calculateTotalEngagement (posts : List XPost) : TotalEngagement :=
  posts.foldl
    (fun acc post =>
      { totalLikes := acc.totalLikes + post.engagement.likes
        totalRetweets := acc.totalRetweets + post.engagement.retweets
        totalReplies := acc.totalReplies + post.engagement.replies
        totalQuotes := acc.totalQuotes + post.engagement.quotes
        totalViews := acc.totalViews + post.engagement.views })
    ⟨0, 0, 0, 0, 0⟩

/-! ## `determineSeverity` (src/server.js lines 596-626) -/

inductive Severity where
  | critical
  | high
  | medium
  | low
  deriving Repr, DecidableEq

/-- Severity rank used by the final sort of `fetchRealTimeIncidents`
(src/server.js line 1986: `{ critical: 4, high: 3, medium: 2, low: 1 }`). -/
def severityOrder : Severity → Nat
  | .critical => 4
  | .high => 3
  | .medium => 2
  | .low => 1

def shootingKeywords : List String :=
  ["shooting", "shots fired", "active shooter", "gunfire"]

def criticalKeywords : List String :=
  ["emergency", "evacuate", "police", "SWAT", "lockdown"]

/-- `posts.some(post => keywords.some(kw => post.text.toLowerCase().includes(kw)))`.
Note: the source lower-cases the post text but not the keyword, so the literal
`"SWAT"` (upper-case) never matches — faithfully reproduced here by comparing
the raw keyword characters against the lowered text. -/
def anyPostHasKeyword (keywords : List String) (posts : List XPost) : Bool :=
  posts.any fun post => keywords.any fun kw => lcIncludes post.text kw

/-- `totalEngagement.totalLikes + totalEngagement.totalRetweets`, the
"total reactions" used by the severity cascade and by the final sort. -/
def totalReactions (posts : List XPost) : Nat :=
  (calculateTotalEngagement posts).totalLikes +
    (calculateTotalEngagement posts).totalRetweets

/-- The keyword/engagement cascade of `determineSeverity`; first satisfied
branch wins. -/
def severityCascade (hasShooting hasCriticalKeyword : Bool)
    (totalReactions : Nat) : Severity :=
  if hasShooting then
    if totalReactions > 500 then .critical else .high
  else if hasCriticalKeyword && totalReactions > 1000 then .critical
  else if hasCriticalKeyword && totalReactions > 500 then .high
  else if totalReactions > 1000 then .high
  else if totalReactions > 500 then .medium
  else .low

def determineSeverity (posts : List XPost) : Severity :=
  if posts.length == 0 then .low
  else
    severityCascade (anyPostHasKeyword shootingKeywords posts)
      (anyPostHasKeyword criticalKeywords posts) (totalReactions posts)

/-! ## `analyzeSentiment` (src/server.js lines 414-440) -/

inductive Sentiment where
  | positive
  | neutral
  | negative
  deriving Repr, DecidableEq

/-- Result of `analyzeSentiment`.  The source's float
`confidence = Math.max(positive, negative, neutral) / total` is kept as the
exact fraction `confidenceNum / confidenceDen`. -/
structure SentimentResult where
  sentiment : Sentiment
  confidenceNum : Nat
  confidenceDen : Nat
  verifiedCount : Nat
  deriving Repr, DecidableEq

def negativeWords : List String :=
  ["false", "hoax", "fake", "debunked", "unconfirmed", "rumor"]

def positiveWords : List String :=
  ["confirmed", "verified", "official", "police", "authorities"]

def analyzeSentiment (posts : List XPost) : SentimentResult :=
  let counts := posts.foldl
    (fun (acc : Nat × Nat × Nat × Nat) post =>
      let (positive, negative, neutral, verifiedCount) := acc
      let verifiedCount := if post.author.verified then verifiedCount + 1 else verifiedCount
      let hasNegative := negativeWords.any fun w => lcIncludes post.text w
      let hasPositive := positiveWords.any fun w => lcIncludes post.text w
      if hasNegative then (positive, negative + 1, neutral, verifiedCount)
      else if hasPositive then (positive + 1, negative, neutral, verifiedCount)
      else (positive, negative, neutral + 1, verifiedCount))
    (0, 0, 0, 0)
  let (positive, negative, neutral, verifiedCount) := counts
  let total := posts.length
  let sentiment : Sentiment :=
    if negative > positive then .negative
    else if positive > neutral then .positive
    else .neutral
  { sentiment := sentiment
    confidenceNum := max positive (max negative neutral)
    confidenceDen := total
    verifiedCount := verifiedCount }

/-- The source's `sentiment.confidence > 0.6` test, performed exactly on the
fraction: `num/den > 6/10  ↔  10*num > 6*den`. -/
def confidenceAbove (s : SentimentResult) (tenths : Nat) : Bool :=
  10 * s.confidenceNum > tenths * s.confidenceDen

/-! ## Reliability gate of `fetchRealTimeIncidents`
(src/server.js lines 1529-1535 and 1803-1811) -/

/-- `sentiment.sentiment !== 'negative' && (sentiment.verifiedCount > 0 ||
sentiment.confidence > 0.6 || posts.length >= 1)`. -/
def isReliable (posts : List XPost) : Bool :=
  let sentiment := analyzeSentiment posts
  sentiment.sentiment ≠ Sentiment.negative &&
    (sentiment.verifiedCount > 0 || confidenceAbove sentiment 6 || posts.length ≥ 1)

/-- The gate: a cluster is skipped (excluded from the output) iff
`!isReliable && posts.length < 2`. -/
def excludedByReliabilityGate (posts : List XPost) : Bool :=
  !isReliable posts && posts.length < 2

/-! ## `extractTopics` (src/server.js lines 714-728) -/

def extractTopics (post : XPost) : List String :=
  let text := post.text
  (if lcIncludes text "shooting" || lcIncludes text "shots fired" then ["shooting"] else []) ++
  (if lcIncludes text "active shooter" then ["active_shooter"] else []) ++
  (if lcIncludes text "arrest" then ["arrest"] else []) ++
  (if lcIncludes text "suspect" then ["suspect"] else []) ++
  (if lcIncludes text "victim" || lcIncludes text "injured" || lcIncludes text "killed"
    then ["casualties"] else []) ++
  (if lcIncludes text "evacuat" then ["evacuation"] else []) ++
  (if lcIncludes text "lockdown" then ["lockdown"] else [])

/-! ## `extractPostLocation` (src/server.js lines 731-835)

The named-place catalogue.  The source builds the list with all priority-1
entries before all priority-3 entries and then stable-sorts it by priority,
which is the identity on this list, so the list is embedded directly in its
(already sorted) source order. -/

structure Place where
  name : String
  keywords : List String
  priority : Nat
  deriving Repr, DecidableEq

/-- An apostrophe character, as a string. -/
def apos : String := String.mk ['\'']

/-- The eleven priority-1 (specific venue/building) catalogue entries. -/
def tier1Places : List Place :=
  [ ⟨"Westfield Valley Fair", ["westfield valley fair", "valley fair mall", "valley fair shopping center"], 1⟩,
    ⟨"Stanford Shopping Center", ["stanford shopping center", "stanford mall"], 1⟩,
    ⟨"Stanford University", ["stanford university", "stanford campus"], 1⟩,
    ⟨"Hoover Tower", ["hoover tower"], 1⟩,
    ⟨"Main Quad", ["main quad"], 1⟩,
    ⟨"Green Library", ["green library"], 1⟩,
    ⟨"Santana Row", ["santana row"], 1⟩,
    ⟨"SAP Center", ["sap center", "sap arena", "shark tank"], 1⟩,
    ⟨"Levi" ++ apos ++ "s Stadium", ["levi" ++ apos ++ "s stadium", "levis stadium"], 1⟩,
    ⟨"Stanford Hospital", ["stanford hospital", "stanford medical center"], 1⟩,
    ⟨"Valley Medical Center", ["valley medical center", "vmc"], 1⟩ ]

/-- The twelve priority-3 (city) catalogue entries. -/
def tier3Places : List Place :=
  [ ⟨"Stanford", ["stanford"], 3⟩,
    ⟨"Palo Alto", ["palo alto"], 3⟩,
    ⟨"San Jose", ["san jose"], 3⟩,
    ⟨"Menlo Park", ["menlo park"], 3⟩,
    ⟨"Mountain View", ["mountain view"], 3⟩,
    ⟨"Redwood City", ["redwood city"], 3⟩,
    ⟨"East Palo Alto", ["east palo alto"], 3⟩,
    ⟨"Santa Clara", ["santa clara"], 3⟩,
    ⟨"Cupertino", ["cupertino"], 3⟩,
    ⟨"Sunnyvale", ["sunnyvale"], 3⟩,
    ⟨"Fremont", ["fremont"], 3⟩,
    ⟨"Milpitas", ["milpitas"], 3⟩ ]

def specificPlaces : List Place := tier1Places ++ tier3Places

/-- A location name with confidence, in hundredths (0.95 ↦ 95). -/
structure LocationMatch where
  location : String
  confidence : Nat
  deriving Repr, DecidableEq

/-- The `for (const place of specificPlaces) for (const keyword of
place.keywords) if (textLower.includes(keyword)) return …` scan: first
catalogue entry with a keyword occurring in the lowered text wins;
priority-1 hits give confidence 0.95, others 0.75. -/
def scanPlaces (places : List Place) (textLower : List Char) : Option LocationMatch :=
  match places with
  | [] => none
  | place :: rest =>
    if place.keywords.any fun kw => listHasSub textLower kw.data then
      some ⟨place.name, if place.priority == 1 then 95 else 75⟩
    else scanPlaces rest textLower

/-! ### Character-level model of the regex patterns

The address/building/intersection/neighborhood patterns of
`extractPostLocation` are JS regexes with the `i` flag.  They are modelled
here as explicit backtracking matchers over `List Char`:

* `[A-Z][a-z]+` under `/i` is a run of ≥ 2 ASCII letters; the run is always
  consumed whole, because in every pattern the next element after the run is
  `\s+` or a word-start literal, so giving characters back can never help.
* greedy `(...)*` / `{0,n}` repetition with backtracking is implemented by
  trying the deeper (longer) parse first and falling back on failure,
  which reproduces the JS engine's preference order.
* literal alternations (`Street|St|…`) are tried in source order and matched
  case-insensitively as prefixes of the remaining input (so, exactly as in
  JS, `"St"` also matches at the start of `"Station"`).
* the leftmost-match rule is `scanMatch`, which tries every start position
  from the left. -/

def isWsChar (c : Char) : Bool :=
  c == ' ' || c == '\t' || c == '\n' || c == '\r'

def isAsciiAlpha (c : Char) : Bool :=
  ('a' ≤ c && c ≤ 'z') || ('A' ≤ c && c ≤ 'Z')

def isAsciiDigit (c : Char) : Bool :=
  '0' ≤ c && c ≤ '9'

/-- Match the literal `lit` case-insensitively at the start of `l`; returns
the consumed original characters and the rest. -/
def matchLiteralCI (lit : String) (l : List Char) : Option (List Char × List Char) :=
  let n := lit.data.length
  let pre := l.take n
  if pre.length == n && pre.map Char.toLower == lit.data.map Char.toLower then
    some (pre, l.drop n)
  else none

/-- Try an alternation of literals in order, first hit wins. -/
def matchAltCI (lits : List String) (l : List Char) : Option (List Char × List Char) :=
  match lits with
  | [] => none
  | s :: rest =>
    match matchLiteralCI s l with
    | some r => some r
    | none => matchAltCI rest l

/-- The street-type alternation of the address patterns, in source order. -/
def streetTypes : List String :=
  ["Street", "St", "Avenue", "Ave", "Road", "Rd", "Boulevard", "Blvd",
   "Drive", "Dr", "Way", "Lane", "Ln", "Circle", "Cir", "Court", "Ct",
   "Place", "Pl"]

/-- Match `(?:Street|St|…)\.?` at the start of `l1`, prepending the already
consumed characters `pre` to the returned capture. -/
def trySuffix (types : List String) (pre l1 : List Char) : Option (List Char × List Char) :=
  match matchAltCI types l1 with
  | some (suf, rest) =>
    match rest with
    | '.' :: r2 => some (pre ++ suf ++ ['.'], r2)
    | _ => some (pre ++ suf, rest)
  | none => none

/-- Match the address-pattern tail `(?:\s+[A-Z][a-z]+)*\s+(?:Street|St|…)\.?`
with JS backtracking: prefer consuming another word (longer star) and fall
back to reading the street type at the current word start.

Recursion is by an explicit `fuel` counter so that the definition is
structural and evaluates inside the kernel; each recursive step consumes at
least three characters of `l`, so the `fuel = 0` branch is unreachable for
the `l.length + 1` fuel every caller supplies. -/
def matchTail (fuel : Nat) (l : List Char) : Option (List Char × List Char) :=
  match fuel with
  | 0 => none
  | fuel + 1 =>
    match l with
    | [] => none
    | c :: rest =>
      -- ws2 = rest.takeWhile isWsChar, l1 = rest.dropWhile isWsChar,
      -- word = l1.takeWhile isAsciiAlpha, l2 = l1.dropWhile isAsciiAlpha
      if isWsChar c then
        match (if ((rest.dropWhile isWsChar).takeWhile isAsciiAlpha).length ≥ 2 then
            matchTail fuel ((rest.dropWhile isWsChar).dropWhile isAsciiAlpha)
          else none) with
        | some (mid, r) =>
          some ((c :: rest.takeWhile isWsChar) ++
            (rest.dropWhile isWsChar).takeWhile isAsciiAlpha ++ mid, r)
        | none =>
          trySuffix streetTypes (c :: rest.takeWhile isWsChar) (rest.dropWhile isWsChar)
      else none

/-- Match the shared core
`\d+\s+[A-Z][a-z]+(?:\s+[A-Z][a-z]+)*\s+(?:Street|St|…)\.?` of the three
address patterns at the start of `l`. -/
def matchAddrCore (l : List Char) : Option (List Char × List Char) :=
  -- digits = l.takeWhile isAsciiDigit; then \s+, a ≥2-letter word, and the tail
  if (l.takeWhile isAsciiDigit).length ≥ 1 then
    match l.dropWhile isAsciiDigit with
    | c :: rest =>
      if isWsChar c then
        if ((rest.dropWhile isWsChar).takeWhile isAsciiAlpha).length ≥ 2 then
          match matchTail (((rest.dropWhile isWsChar).dropWhile isAsciiAlpha).length + 1)
              ((rest.dropWhile isWsChar).dropWhile isAsciiAlpha) with
          | some (mid, r) =>
            some (l.takeWhile isAsciiDigit ++ (c :: rest.takeWhile isWsChar) ++
              (rest.dropWhile isWsChar).takeWhile isAsciiAlpha ++ mid, r)
          | none => none
        else none
      else none
    | [] => none
  else none

/-- Pattern 1 (src/server.js line 782), matched at the start of `l`:
`(?:at|on|near|in)\s+(CORE)`.  Returns the captured group. -/
def matchP1At (l : List Char) : Option (List Char) :=
  match matchAltCI ["at", "on", "near", "in"] l with
  | some (_, l1) =>
    match l1 with
    | c :: rest =>
      if isWsChar c then
        match matchAddrCore (rest.dropWhile isWsChar) with
        | some (cap, _) => some cap
        | none => none
      else none
    | [] => none
  | none => none

/-- Pattern 2 (src/server.js line 784), matched at the start of `l`:
the bare `(CORE)`. -/
def matchP2At (l : List Char) : Option (List Char) :=
  match matchAddrCore l with
  | some (cap, _) => some cap
  | none => none

/-- The word chain `[A-Z][a-z]+(?:\s+[A-Z][a-z]+)*`: `(\s+word)*`, greedy,
nothing follows so the maximal chain is taken. -/
def wChainMore (fuel : Nat) (l : List Char) : List Char × List Char :=
  match fuel with
  | 0 => ([], l)
  | fuel + 1 =>
    match l with
    | [] => ([], [])
    | c :: rest =>
      if isWsChar c then
        if ((rest.dropWhile isWsChar).takeWhile isAsciiAlpha).length ≥ 2 then
          ((c :: rest.takeWhile isWsChar) ++
            (rest.dropWhile isWsChar).takeWhile isAsciiAlpha ++
            (wChainMore fuel ((rest.dropWhile isWsChar).dropWhile isAsciiAlpha)).1,
           (wChainMore fuel ((rest.dropWhile isWsChar).dropWhile isAsciiAlpha)).2)
        else ([], c :: rest)
      else ([], c :: rest)

/-- `[A-Z][a-z]+(?:\s+[A-Z][a-z]+)*` at the start of `l`. -/
def wChain (l : List Char) : Option (List Char × List Char) :=
  if (l.takeWhile isAsciiAlpha).length ≥ 2 then
    some (l.takeWhile isAsciiAlpha ++
        (wChainMore ((l.dropWhile isAsciiAlpha).length + 1) (l.dropWhile isAsciiAlpha)).1,
      (wChainMore ((l.dropWhile isAsciiAlpha).length + 1) (l.dropWhile isAsciiAlpha)).2)
  else none

/-- The optional city tail of pattern 3 (src/server.js line 786):
`(?:,?\s+(?:in|at|near)\s+)?[A-Z][a-z]+(?:\s+[A-Z][a-z]+)*`.
Greedy: the variant with the preposition group is tried first. -/
def cityTail (l : List Char) : Option (List Char × List Char) :=
  let withGroup : Option (List Char × List Char) :=
    let (comma, l1) :=
      match l with
      | ',' :: r => (([','] : List Char), r)
      | _ => ([], l)
    match l1 with
    | c :: rest =>
      if isWsChar c then
        let ws2 := rest.takeWhile isWsChar
        let l2 := rest.dropWhile isWsChar
        match matchAltCI ["in", "at", "near"] l2 with
        | some (prep, l3) =>
          match l3 with
          | d :: rest2 =>
            if isWsChar d then
              let ws3 := rest2.takeWhile isWsChar
              let l4 := rest2.dropWhile isWsChar
              match wChain l4 with
              | some (chain, r) =>
                some (comma ++ (c :: ws2) ++ prep ++ (d :: ws3) ++ chain, r)
              | none => none
            else none
          | [] => none
        | none => none
      else none
    | [] => none
  match withGroup with
  | some r => some r
  | none => wChain l

/-- The tail of pattern 3: like `matchTail` but the street type must be
followed by the city tail; on failure the backtracking continues exactly as
the JS engine does (deeper street-type positions are preferred, and a parse
whose city tail fails falls back to a shallower street type). -/
def matchTail3 (fuel : Nat) (l : List Char) : Option (List Char × List Char) :=
  match fuel with
  | 0 => none
  | fuel + 1 =>
    match l with
    | [] => none
    | c :: rest =>
      if isWsChar c then
        match (if ((rest.dropWhile isWsChar).takeWhile isAsciiAlpha).length ≥ 2 then
            matchTail3 fuel ((rest.dropWhile isWsChar).dropWhile isAsciiAlpha)
          else none) with
        | some (mid, r) =>
          some ((c :: rest.takeWhile isWsChar) ++
            (rest.dropWhile isWsChar).takeWhile isAsciiAlpha ++ mid, r)
        | none =>
          match trySuffix streetTypes (c :: rest.takeWhile isWsChar)
              (rest.dropWhile isWsChar) with
          | some (mid, r) =>
            match cityTail r with
            | some (tail, r2) => some (mid ++ tail, r2)
            | none => none
          | none => none
      else none

/-- Pattern 3 (src/server.js line 786) at the start of `l`:
`(CORE(?:,?\s+(?:in|at|near)\s+)?[A-Z][a-z]+(?:\s+[A-Z][a-z]+)*)`. -/
def matchP3At (l : List Char) : Option (List Char) :=
  if (l.takeWhile isAsciiDigit).length ≥ 1 then
    match l.dropWhile isAsciiDigit with
    | c :: rest =>
      if isWsChar c then
        if ((rest.dropWhile isWsChar).takeWhile isAsciiAlpha).length ≥ 2 then
          match matchTail3 (((rest.dropWhile isWsChar).dropWhile isAsciiAlpha).length + 1)
              ((rest.dropWhile isWsChar).dropWhile isAsciiAlpha) with
          | some (mid, _) =>
            some (l.takeWhile isAsciiDigit ++ (c :: rest.takeWhile isWsChar) ++
              (rest.dropWhile isWsChar).takeWhile isAsciiAlpha ++ mid)
          | none => none
        else none
      else none
    | [] => none
  else none

/-- JS leftmost-match rule: try the pattern at every start position from the
left; first success wins. -/
def scanMatch {α : Type} (m : List Char → Option α) (l : List Char) : Option α :=
  match m l with
  | some r => some r
  | none =>
    match l with
    | [] => none
    | _ :: rest => scanMatch m rest

/-- JS `.trim()`. -/
def trimChars (l : List Char) : List Char :=
  ((l.dropWhile isWsChar).reverse.dropWhile isWsChar).reverse

/-- The anti-false-positive guard of the address patterns
(src/server.js line 794):
`!textLower.includes('alert') || address.toLowerCase().includes('st') ||
address.toLowerCase().includes('street')`. -/
def addressGuard (textLower address : List Char) : Bool :=
  !(listHasSub textLower "alert".data) ||
    listHasSub (address.map Char.toLower) "st".data ||
    listHasSub (address.map Char.toLower) "street".data

/-- The street-address stage (src/server.js lines 779-798): the three
patterns are tried in order; a match whose guard fails does not return but
falls through to the next pattern. -/
def addressStage (text : String) : Option LocationMatch :=
  let chars := text.data
  let textLower := lowerData text
  let tryPattern (matchAt : List Char → Option (List Char)) : Option LocationMatch :=
    match scanMatch matchAt chars with
    | some cap =>
      let address := trimChars cap
      if addressGuard textLower address then some ⟨String.mk address, 90⟩ else none
    | none => none
  match tryPattern matchP1At with
  | some r => some r
  | none =>
    match tryPattern matchP2At with
    | some r => some r
    | none => tryPattern matchP3At

/-! ### Building/venue, intersection and neighborhood patterns
(src/server.js lines 800-832) -/

def venueNouns1 : List String :=
  ["Mall", "Center", "Centre", "Store", "Shop", "Restaurant", "Cafe",
   "Cafeteria", "Hospital", "Clinic", "School", "University", "Campus",
   "Park", "Plaza", "Square", "Stadium", "Arena", "Building", "Tower",
   "Hall", "Library", "Museum", "Theater", "Theatre", "Hotel", "Inn",
   "Market", "Station", "Terminal", "Airport"]

def venueNouns2 : List String :=
  ["Building", "Tower", "Hall", "Center", "Library", "Museum"]

def neighborhoodNouns : List String :=
  ["neighborhood", "area", "district", "region", "vicinity"]

/-- Match `(?:\s+[A-Z][a-z]+){0,maxExtra}\s+(?:NOUN1|NOUN2|…)` with JS
backtracking (prefer more words, then try the noun at the current word
start). -/
def matchVenueTail (nouns : List String) (maxExtra : Nat) (l : List Char) :
    Option (List Char × List Char) :=
  match l with
  | [] => none
  | c :: rest =>
    if isWsChar c then
      let ws2 := rest.takeWhile isWsChar
      let l1 := rest.dropWhile isWsChar
      let word := l1.takeWhile isAsciiAlpha
      let l2 := l1.dropWhile isAsciiAlpha
      let deeper : Option (List Char × List Char) :=
        match maxExtra with
        | 0 => none
        | k + 1 =>
          if word.length ≥ 2 then
            match matchVenueTail nouns k l2 with
            | some (mid, r) => some ((c :: ws2) ++ word ++ mid, r)
            | none => none
          else none
      match deeper with
      | some r => some r
      | none =>
        match matchAltCI nouns l1 with
        | some (noun, r) => some ((c :: ws2) ++ noun, r)
        | none => none
    else none

/-- Match one of the two building patterns (or the neighborhood pattern) at
the start of `l`:
`(?:at|in|near)\s+(?:the\s+)?([A-Z][a-z]+(?:\s+[A-Z][a-z]+){0,maxExtra}\s+(?:NOUNS))`.
`preps` is the preposition alternation in source order; `allowThe` is true
for the patterns that carry the optional `(?:the\s+)?` group (the second
building pattern and the neighborhood pattern). -/
def matchBuildingAt (preps : List String) (nouns : List String) (maxExtra : Nat)
    (allowThe : Bool) (l : List Char) : Option (List Char) :=
  match matchAltCI preps l with
  | some (_, l1) =>
    match l1 with
    | c :: rest =>
      if isWsChar c then
        let l2 := rest.dropWhile isWsChar
        let tryAt (start : List Char) : Option (List Char) :=
          let word := start.takeWhile isAsciiAlpha
          let l3 := start.dropWhile isAsciiAlpha
          if word.length ≥ 2 then
            match matchVenueTail nouns maxExtra l3 with
            | some (mid, _) => some (word ++ mid)
            | none => none
          else none
        if allowThe then
          match matchLiteralCI "the" l2 with
          | some (_, l3) =>
            match l3 with
            | d :: rest2 =>
              if isWsChar d then
                match tryAt (rest2.dropWhile isWsChar) with
                | some cap => some cap
                | none => tryAt l2
              else tryAt l2
            | [] => tryAt l2
          | none => tryAt l2
        else tryAt l2
      else none
    | [] => none
  | none => none

def actionWords : List String :=
  ["shooting", "arrested", "incident", "alert", "emergency", "police",
   "active", "reported"]

/-- The building/venue-name stage (src/server.js lines 800-818): two
patterns in order; a capture containing an action word is rejected and the
next pattern is tried. -/
def buildingStage (text : String) : Option LocationMatch :=
  let chars := text.data
  let tryPattern (matchAt : List Char → Option (List Char)) : Option LocationMatch :=
    match scanMatch matchAt chars with
    | some cap =>
      let building := trimChars cap
      if !(actionWords.any fun w => listHasSub (building.map Char.toLower) w.data) then
        some ⟨String.mk building, 85⟩
      else none
    | none => none
  match tryPattern (matchBuildingAt ["at", "in", "near"] venueNouns1 4 false) with
  | some r => some r
  | none => tryPattern (matchBuildingAt ["at", "in", "near"] venueNouns2 4 true)

/-- The street-type alternation of the intersection pattern (shorter than
`streetTypes`). -/
def intersectionTypes : List String :=
  ["Street", "St", "Avenue", "Ave", "Road", "Rd", "Boulevard", "Blvd",
   "Drive", "Dr", "Way", "Lane", "Ln"]

/-- The options for one intersection side `[A-Z][a-z]+(?:\s+(?:Street|…))?`,
in JS preference order: with the optional street-type suffix first, then
without. -/
def matchSideOptions (l : List Char) : List (List Char × List Char) :=
  let word := l.takeWhile isAsciiAlpha
  let l1 := l.dropWhile isAsciiAlpha
  if word.length ≥ 2 then
    let withSuf : List (List Char × List Char) :=
      match l1 with
      | c :: rest =>
        if isWsChar c then
          let ws2 := rest.takeWhile isWsChar
          let l2 := rest.dropWhile isWsChar
          match matchAltCI intersectionTypes l2 with
          | some (suf, r) => [(word ++ (c :: ws2) ++ suf, r)]
          | none => []
        else []
      | [] => []
    withSuf ++ [(word, l1)]
  else []

/-- The intersection pattern (src/server.js line 821) at the start of `l`:
`(?:at|near)\s+(SIDE)\s+(?:and|&)\s+(SIDE)`; returns both captures. -/
def matchIntersectionAt (l : List Char) : Option (List Char × List Char) :=
  match matchAltCI ["at", "near"] l with
  | some (_, l1) =>
    match l1 with
    | c :: rest =>
      if isWsChar c then
        let l2 := rest.dropWhile isWsChar
        (matchSideOptions l2).findSome? fun (cap1, r1) =>
          match r1 with
          | d :: rest2 =>
            if isWsChar d then
              let l3 := rest2.dropWhile isWsChar
              match matchAltCI ["and", "&"] l3 with
              | some (_, l4) =>
                match l4 with
                | e :: rest3 =>
                  if isWsChar e then
                    let l5 := rest3.dropWhile isWsChar
                    match matchSideOptions l5 with
                    | (cap2, _) :: _ => some (cap1, cap2)
                    | [] => none
                  else none
                | [] => none
              | none => none
            else none
          | [] => none
      else none
    | [] => none
  | none => none

/-- The intersection stage (src/server.js lines 820-825): result is
`"A & B"` with both sides trimmed, confidence 0.85. -/
def intersectionStage (text : String) : Option LocationMatch :=
  match scanMatch matchIntersectionAt text.data with
  | some (cap1, cap2) =>
    some ⟨String.mk (trimChars cap1) ++ " & " ++ String.mk (trimChars cap2), 85⟩
  | none => none

/-- The neighborhood stage (src/server.js lines 827-832): confidence 0.7. -/
def neighborhoodStage (text : String) : Option LocationMatch :=
  match scanMatch (matchBuildingAt ["in", "at", "near"] neighborhoodNouns 2 true) text.data with
  | some cap => some ⟨String.mk (trimChars cap), 70⟩
  | none => none

/-- `extractPostLocation` (src/server.js lines 731-835): the full cascade.
Named-place catalogue, then street addresses, then building names, then
intersections, then neighborhoods; no match gives `("", 0)`. -/
def extractPostLocation (post : XPost) : LocationMatch :=
  let textLower := lowerData post.text
  match scanPlaces specificPlaces textLower with
  | some r => r
  | none =>
  match addressStage post.text with
  | some r => r
  | none =>
  match buildingStage post.text with
  | some r => r
  | none =>
  match intersectionStage post.text with
  | some r => r
  | none =>
  match neighborhoodStage post.text with
  | some r => r
  | none => ⟨"", 0⟩

/-! ## `anchorIncidentsToLocations` (src/server.js lines 838-943) -/

/-- Working cluster state during anchoring (the mutable accumulator of the
source).  `timestamp` stores the epoch milliseconds of the cluster's current
most-recent member. -/
structure IncidentCluster where
  posts : List XPost
  location : String
  topics : List String
  timestamp : Int
  deriving Repr, DecidableEq

/-- The 24-hour recency test.  The source computes
`Math.abs(postTime - incidentTime) / (1000 * 60 * 60) > 24`; on exact
integers this is equivalent to `|Δ| > 24*1000*60*60` milliseconds. -/
def hoursDiffGT24 (postTime incidentTime : Int) : Bool :=
  (postTime - incidentTime).natAbs > 24 * (1000 * 60 * 60)

/-- Union of topics, preserving first-appearance order (the source's
`forEach`/`includes`/`push` loop). -/
def unionTopics (clusterTopics postTopics : List String) : List String :=
  postTopics.foldl (fun ts topic => if ts.contains topic then ts else ts ++ [topic])
    clusterTopics

/-- Pass-1 cluster predicate (src/server.js lines 853-871): location equality
or containment either way, topic compatibility (overlap required only when
both sets are non-empty and one side involves "shooting"), and the 24-hour
window against the cluster's current most-recent timestamp. -/
def pass1Matches (postLocation : LocationMatch) (postTopics : List String)
    (postTime : Int) (incident : IncidentCluster) : Bool :=
  -- loc1/loc2 are the lowered cluster and post locations of the source
  if lowerData incident.location != lowerData postLocation.location &&
      !listHasSub (lowerData incident.location) (lowerData postLocation.location) &&
      !listHasSub (lowerData postLocation.location) (lowerData incident.location) then false
  -- topicOverlap / isShooting
  else if !(incident.topics.any fun topic => postTopics.contains topic) &&
      incident.topics.length > 0 && postTopics.length > 0 &&
      (postTopics.contains "shooting" || incident.topics.contains "shooting") then false
  else if hoursDiffGT24 postTime incident.timestamp then false
  else true

/-- Pass-1 attachment (src/server.js lines 873-888): append the post, union
the topics, advance the most-recent timestamp, and replace the location by a
more specific one when the post's confidence exceeds 0.8 and its location
string is longer. -/
def pass1Attach (post : XPost) (postLocation : LocationMatch) (postTopics : List String)
    (postTime : Int) (incident : IncidentCluster) : IncidentCluster :=
  { posts := incident.posts ++ [post]
    topics := unionTopics incident.topics postTopics
    timestamp := if postTime > incident.timestamp then post.timestamp else incident.timestamp
    location :=
      if postLocation.confidence > 80 && incident.location.length < postLocation.location.length
      then postLocation.location else incident.location }

/-- The source's `incidents.find(...)` followed by in-place mutation of the
found cluster: update the first cluster satisfying `pred` by `upd`, or
return `none` when no cluster matches. -/
def insertFirstMatch (pred : IncidentCluster → Bool) (upd : IncidentCluster → IncidentCluster) :
    List IncidentCluster → Option (List IncidentCluster)
  | [] => none
  | c :: rest =>
    if pred c then some (upd c :: rest)
    else
      match insertFirstMatch pred upd rest with
      | some rest' => some (c :: rest')
      | none => none

/-- One pass-1 iteration of the `posts.forEach` loop.  State: the cluster
arena and the `processed` id set (as a list).  A post is skipped when already
processed or when its extracted location confidence is below 0.5; otherwise it
is attached to the first matching cluster or seeds a new one, and is marked
processed. -/
def pass1Step (st : List IncidentCluster × List String) (post : XPost) :
    List IncidentCluster × List String :=
  let (incidents, processed) := st
  if processed.contains post.id then st
  else if (extractPostLocation post).confidence < 50 then st
  else
    match insertFirstMatch
        (pass1Matches (extractPostLocation post) (extractTopics post) post.timestamp)
        (pass1Attach post (extractPostLocation post) (extractTopics post) post.timestamp)
        incidents with
    | some incidents' => (incidents', processed ++ [post.id])
    | none =>
      (incidents ++ [{ posts := [post], location := (extractPostLocation post).location,
                       topics := extractTopics post, timestamp := post.timestamp }],
       processed ++ [post.id])

/-- Pass-2 cluster predicate (src/server.js lines 912-928): the lowered post
text must contain the cluster's lowered location, topic overlap is required
only when both sets are non-empty, and the same 24-hour window applies. -/
def pass2Matches (postText : List Char) (postTopics : List String) (postTime : Int)
    (incident : IncidentCluster) : Bool :=
  -- mentionsLocation
  if !listHasSub postText (lowerData incident.location) then false
  -- topicOverlap
  else if !(incident.topics.any fun topic => postTopics.contains topic) &&
      incident.topics.length > 0 && postTopics.length > 0 then false
  else if hoursDiffGT24 postTime incident.timestamp then false
  else true

/-- Pass-2 attachment (src/server.js lines 930-938): append the post and
union the topics; the cluster's location and timestamp are not touched. -/
def pass2Attach (post : XPost) (postTopics : List String) (incident : IncidentCluster) :
    IncidentCluster :=
  { incident with
      posts := incident.posts ++ [post]
      topics := unionTopics incident.topics postTopics }

/-- One pass-2 iteration.  (The source also computes `extractPostLocation`
here, but never uses the result in this pass.)  A post that matches no
cluster is left unprocessed and is dropped. -/
def pass2Step (st : List IncidentCluster × List String) (post : XPost) :
    List IncidentCluster × List String :=
  let (incidents, processed) := st
  if processed.contains post.id then st
  else
    match insertFirstMatch
        (pass2Matches (lowerData post.text) (extractTopics post) post.timestamp)
        (pass2Attach post (extractTopics post)) incidents with
    | some incidents' => (incidents', processed ++ [post.id])
    | none => st

/-- The two-pass anchoring engine, followed by the minimum-member filter
(`incident.posts.length >= 1`, src/server.js line 942). -/
def anchorIncidentsToLocations (posts : List XPost) : List IncidentCluster :=
  let st1 := posts.foldl pass1Step ([], [])
  let st2 := posts.foldl pass2Step st1
  st2.1.filter fun incident => incident.posts.length ≥ 1

/-! ## `generateTLDR` (src/server.js lines 443-577) -/

/-- Match `https?:\/\/[^\s]+` at the start of `l` (case-sensitive, greedy
optional `s` first); returns the rest of the input after the URL. -/
def matchSchemeAt (scheme l : List Char) : Option (List Char) :=
  if scheme.isPrefixOf l then
    let r := l.drop scheme.length
    let body := r.takeWhile fun c => !isWsChar c
    if body.length ≥ 1 then some (r.drop body.length) else none
  else none

def matchUrlAt (l : List Char) : Option (List Char) :=
  match matchSchemeAt "https://".data l with
  | some r => some r
  | none => matchSchemeAt "http://".data l

/-- JS `text.replace(/https?:\/\/[^\s]+/g, '')`: remove every URL,
scanning left to right, continuing after each removed URL.  Structural fuel
recursion (every step consumes at least one character, so `l.length + 1`
fuel never runs out). -/
def stripUrls (fuel : Nat) (l : List Char) : List Char :=
  match fuel with
  | 0 => l
  | fuel + 1 =>
    match l with
    | [] => []
    | c :: rest =>
      match matchUrlAt (c :: rest) with
      | some r => stripUrls fuel r
      | none => c :: stripUrls fuel rest

/-- Models the capture of `(.{0,200}(?:KW|…).{0,200})` (case-insensitive)
against the URL-stripped text: `none` when no keyword occurs in it.  For the
newline-free ≤ 200-character windows of the short post texts this system
processes, the greedy context windows extend to the whole string, so the
capture is the entire cleaned text; downstream only keyword containment and
exact-duplicate tests are applied to it. -/
def captureCtx (kws : List String) (clean : List Char) : Option (List Char) :=
  if kws.any fun kw => listHasSub (clean.map Char.toLower) kw.data then some clean
  else none

/-- One extraction category of the `topPosts.forEach` loop (src/server.js
lines 475-506): posts whose lowered text contains a category keyword
contribute the capture from their URL-stripped trimmed text, deduplicated by
exact equality. -/
def collectCat (kws : List String) (posts : List XPost) : List (List Char) :=
  posts.foldl
    (fun acc post =>
      if kws.any (fun kw => lcIncludes post.text kw) then
        match captureCtx kws (trimChars (stripUrls (post.text.data.length + 1) post.text.data)) with
        | some m => if acc.contains m then acc else acc ++ [m]
        | none => acc
      else acc)
    []

def whatHappenedKeywords : List String :=
  ["shooting", "shots fired", "gunfire", "active shooter"]

def suspectKeywords : List String :=
  ["suspect", "arrested", "in custody", "perpetrator", "shooter"]

def resolutionKeywords : List String :=
  ["resolved", "cleared", "evacuated", "contained", "under control",
   "arrested", "in custody"]

def casualtyKeywords : List String :=
  ["injured", "killed", "wounded", "victim", "casualty", "hospitalized"]

/-- The sort comparator of `generateTLDR` (src/server.js lines 447-459) as a
`≤` relation: shooting-related posts first, then by likes+retweets
descending.  `le a b` holds iff the JS comparator returns ≤ 0 on `(a, b)`. -/
def tldrSortLe (a b : XPost) : Bool :=
  let aIsShooting := lcIncludes a.text "shooting" || lcIncludes a.text "shots fired"
  let bIsShooting := lcIncludes b.text "shooting" || lcIncludes b.text "shots fired"
  if aIsShooting && !bIsShooting then true
  else if !aIsShooting && bIsShooting then false
  else b.engagement.likes + b.engagement.retweets ≤ a.engagement.likes + a.engagement.retweets

/-- The location filter of `generateTLDR` (src/server.js lines 514-522). -/
def locMention (incidentLocation : String) (p : XPost) : Bool :=
  let text := lowerData p.text
  let locLower := lowerData incidentLocation
  listHasSub text locLower ||
    (listHasSub locLower "stanford".data && listHasSub text "stanford".data) ||
    (listHasSub locLower "westfield".data &&
      (listHasSub text "westfield".data || listHasSub text "valley fair".data)) ||
    (listHasSub locLower "palo alto".data && listHasSub text "palo alto".data) ||
    (listHasSub locLower "san jose".data && listHasSub text "san jose".data)

/-- The primary-post predicate of the what-happened block (src/server.js
lines 528-534). -/
def primaryShootingPred (incidentLocation : String) (p : XPost) : Bool :=
  let text := lowerData p.text
  let locLower := lowerData incidentLocation
  (listHasSub text "shooting".data || listHasSub text "shots fired".data) &&
    (listHasSub text locLower ||
      (listHasSub locLower "stanford".data && listHasSub text "stanford".data) ||
      (listHasSub locLower "westfield".data &&
        (listHasSub text "westfield".data || listHasSub text "valley fair".data)))

/-- The suspect-post predicate (src/server.js lines 558-560). -/
def suspectPred (p : XPost) : Bool :=
  lcIncludes p.text "suspect" || lcIncludes p.text "arrested" ||
    lcIncludes p.text "in custody"

structure Citation where
  id : Nat
  url : String
  username : String
  deriving Repr, DecidableEq

structure TLDRResult where
  summary : String
  citations : List Citation
  deriving Repr, DecidableEq

/-- JS `s.trim()`. -/
def trimString (s : String) : String :=
  String.mk (trimChars s.data)

/-- The citation pushes of `generateTLDR` (src/server.js lines 536-539 and
562-565): block 1 always cites the primary post with sequence number 1 (the
`usedUrls` set is still empty there); block 2 cites the suspect post with
the next sequence number unless its URL was already used. -/
def tldrCitations (block1Active : Bool) (primaryPost? : Option XPost)
    (suspectActive : Bool) (suspectPost? : Option XPost) : List Citation :=
  let citations1 : List Citation :=
    if block1Active then
      match primaryPost? with
      | some pp => [⟨1, pp.url, pp.author.username⟩]
      | none => []
    else []
  let citations2 : List Citation :=
    if suspectActive then
      match suspectPost? with
      | some sp =>
        if !(citations1.map fun cit => cit.url).contains sp.url then
          [⟨citations1.length + 1, sp.url, sp.author.username⟩]
        else []
      | none => []
    else []
  citations1 ++ citations2

/-- The narrative synthesizer.  The source builds `summary` and `citations`
imperatively; here each block's citation contribution and summary sentence
are computed from the same values in the same order (block 1: what happened,
block 2: suspect, block 3: resolution). -/
def generateTLDR (posts : List XPost) (incidentLocation : String) : TLDRResult :=
  if posts.length = 0 then ⟨"No information available.", []⟩
  else
    let sortedPosts := posts.mergeSort tldrSortLe
    let topPosts := sortedPosts.take 7
    let isShooting := topPosts.any fun p => lcIncludes p.text "shooting"
    let whatHappened := collectCat whatHappenedKeywords topPosts
    let suspectInfo := collectCat suspectKeywords topPosts
    let resolution := collectCat resolutionKeywords topPosts
    let casualties := collectCat casualtyKeywords topPosts
    let locationPosts := topPosts.filter (locMention incidentLocation)
    let relevantPosts := if locationPosts.length > 0 then locationPosts else topPosts
    -- Block 1: "what happened" (src/server.js lines 527-554).
    let primaryPost? : Option XPost :=
      match relevantPosts.find? (primaryShootingPred incidentLocation) with
      | some p => some p
      | none => relevantPosts[0]?
    let block1Active := whatHappened.length > 0 && isShooting
    let summary1 : String :=
      if block1Active then
        match primaryPost? with
        | some pp =>
          "Shooting reported at " ++ incidentLocation ++ ". [@" ++
            pp.author.username ++ "](" ++ pp.url ++ ") " ++
            (match casualties with
             | cas :: _ =>
               if listHasSub (cas.map Char.toLower) "killed".data ||
                   listHasSub (cas.map Char.toLower) "dead".data then
                 "reported fatalities"
               else if listHasSub (cas.map Char.toLower) "injured".data then
                 "reported injuries"
               else ""
             | [] => "reported the incident") ++ ". "
        | none => ""
      else ""
    -- Block 2: suspect (src/server.js lines 557-570).
    let suspectPost? : Option XPost :=
      if suspectInfo.length > 0 then
        match relevantPosts.find? suspectPred with
        | some p => some p
        | none => relevantPosts[1]?
      else none
    let summary2 : String :=
      if suspectInfo.length > 0 then
        match suspectInfo with
        | si :: _ =>
          if listHasSub (si.map Char.toLower) "arrested".data ||
              listHasSub (si.map Char.toLower) "in custody".data then
            "[@" ++
              (match suspectPost? with
               | some sp => if sp.author.username = "" then "source" else sp.author.username
               | none => "source") ++
              "](" ++
              (match suspectPost? with
               | some sp => if sp.url = "" then "#" else sp.url
               | none => "#") ++
              ") confirmed suspect in custody. "
          else ""
        | [] => ""
      else ""
    -- Block 3: resolution (src/server.js lines 572-574).
    let summary3 : String :=
      match resolution with
      | r :: _ => if listHasSub (r.map Char.toLower) "cleared".data then "Scene cleared." else ""
      | [] => ""
    ⟨trimString (summary1 ++ summary2 ++ summary3),
      tldrCitations block1Active primaryPost? (suspectInfo.length > 0) suspectPost?⟩

/-! ## `Incident` and the final merge of `fetchRealTimeIncidents`
(src/server.js lines 1979-1994) -/

/-- The output record, restricted to the fields the final merge/sort reads
(`severity` and `discussion.totalEngagement`), plus the identifying fields. -/
structure Incident where
  id : String
  title : String
  severity : Severity
  location : String
  timestamp : Int
  totalEngagement : TotalEngagement
  deriving Repr, DecidableEq

/-- The final sort comparator as a `≤` test: `incidentSortLe a b` holds iff
the JS comparator returns ≤ 0 on `(a, b)` — i.e. `b` ranks no higher than `a`
in the descending (severity rank, likes+retweets) order. -/
def incidentSortLe (a b : Incident) : Bool :=
  if severityOrder b.severity == severityOrder a.severity then
    b.totalEngagement.totalLikes + b.totalEngagement.totalRetweets ≤
      a.totalEngagement.totalLikes + a.totalEngagement.totalRetweets
  else decide (severityOrder b.severity < severityOrder a.severity)

/-- `[...hardcodedIncidents, ...incidents].sort(cmp)`: the catalogue
incidents concatenated with the live/query incidents, sorted by the
comparator (ES2019 `Array.prototype.sort` is stable, modelled by the stable
`mergeSort`). -/
def finalMerge (hardcodedIncidents incidents : List Incident) : List Incident :=
  (hardcodedIncidents ++ incidents).mergeSort incidentSortLe

/-! # Claims -/

/-- Helper for building concrete posts in witnesses and counterexamples. -/
def mkPost (id text : String) (ts : Int) (e : Engagement) : XPost :=
  { id := id, text := text,
    author := { username := "user_" ++ id, name := "User " ++ id, verified := false },
    url := "https://x.com/user/" ++ id, timestamp := ts, engagement := e }

/-! ## C3: the low-engagement filter -/

/-- C3 counterexample: a post whose only nonzero engagement metric is
`quotes` is dropped by `filterLowEngagementPosts`, contradicting the claim
that a post with any single nonzero engagement metric is kept. -/
theorem c3_counterexample :
    filterLowEngagementPosts [mkPost "q" "quoted post" 0 ⟨0, 0, 0, 5, 0⟩] = [] ∧
      (mkPost "q" "quoted post" 0 ⟨0, 0, 0, 5, 0⟩).engagement.quotes > 0 := by
  constructor
  · rfl
  · decide

/-- C3 (amended): the filter keeps a post iff it has a nonzero count among
likes, retweets (reshares), replies and views; `quotes` is not consulted, so
a post whose only engagement is quotes is dropped. -/
theorem filterLowEngagementPosts_mem_iff (posts : List XPost) (p : XPost) :
    p ∈ filterLowEngagementPosts posts ↔
      p ∈ posts ∧ (p.engagement.likes > 0 ∨ p.engagement.retweets > 0 ∨
        p.engagement.replies > 0 ∨ p.engagement.views > 0) := by
  simp [filterLowEngagementPosts, List.mem_filter, or_assoc]

/-! ## C1: the reliability gate on single-post clusters -/

/-- C1 counterexample: a concrete cluster of exactly one post with overall
negative sentiment and zero verified authors IS excluded by the reliability
gate of `fetchRealTimeIncidents` (the claim asserts it is not excluded). -/
theorem c1_counterexample :
    excludedByReliabilityGate [mkPost "c1" "this is a hoax" 0 ⟨3, 0, 0, 0, 0⟩] = true ∧
    (analyzeSentiment [mkPost "c1" "this is a hoax" 0 ⟨3, 0, 0, 0, 0⟩]).sentiment =
      Sentiment.negative ∧
    (analyzeSentiment [mkPost "c1" "this is a hoax" 0 ⟨3, 0, 0, 0, 0⟩]).verifiedCount = 0 := by
  refine ⟨?_, ?_, ?_⟩ <;> decide

/-- C1 (amended): for a cluster of exactly one post the reliability gate
excludes the cluster exactly when its overall sentiment is negative — the
member-count-at-least-1 clause makes the second conjunct of `isReliable`
always true, but a negative sentiment falsifies the first conjunct, so the
cluster IS dropped; moreover a singleton's sentiment confidence is always 1
(numerator equals denominator), so the claim's "confidence at most 0.6"
hypothesis can never hold. -/
theorem reliabilityGate_singleton (posts : List XPost) (h : posts.length = 1) :
    (excludedByReliabilityGate posts =
      ((analyzeSentiment posts).sentiment == Sentiment.negative)) ∧
    (analyzeSentiment posts).confidenceNum = (analyzeSentiment posts).confidenceDen := by
  obtain ⟨p, rfl⟩ := List.length_eq_one.mp h
  by_cases hn : ∃ x ∈ negativeWords, lcIncludes p.text x = true <;>
    by_cases hp : ∃ x ∈ positiveWords, lcIncludes p.text x = true <;>
    by_cases hv : p.author.verified = true <;>
    simp [excludedByReliabilityGate, isReliable, analyzeSentiment, confidenceAbove,
      hn, hp, hv]

/-- Witness for `reliabilityGate_singleton` at a concrete singleton. -/
theorem reliabilityGate_singleton_witness :
    [mkPost "w1" "unconfirmed rumor downtown" 0 ⟨1, 0, 0, 0, 0⟩].length = 1 ∧
    ((excludedByReliabilityGate [mkPost "w1" "unconfirmed rumor downtown" 0 ⟨1, 0, 0, 0, 0⟩] =
      ((analyzeSentiment [mkPost "w1" "unconfirmed rumor downtown" 0 ⟨1, 0, 0, 0, 0⟩]).sentiment ==
        Sentiment.negative)) ∧
     (analyzeSentiment [mkPost "w1" "unconfirmed rumor downtown" 0 ⟨1, 0, 0, 0, 0⟩]).confidenceNum =
      (analyzeSentiment [mkPost "w1" "unconfirmed rumor downtown" 0 ⟨1, 0, 0, 0, 0⟩]).confidenceDen) :=
  ⟨by decide, reliabilityGate_singleton _ (by decide)⟩

/-! ## C7: severity monotone in engagement -/

theorem severityCascade_mono (s c : Bool) {m n : Nat} (h : m ≤ n) :
    severityOrder (severityCascade s c m) ≤ severityOrder (severityCascade s c n) := by
  unfold severityCascade
  cases s <;> cases c <;> split_ifs <;> simp_all [severityOrder] <;> omega

theorem one_le_severityOrder (s : Severity) : 1 ≤ severityOrder s := by
  cases s <;> decide

/-- C7: holding the shooting-keyword and critical-keyword findings fixed,
a post set with at least as many total reactions (likes + retweets) never
gets a strictly lower severity tier (in the rank order critical=4 > high=3 >
medium=2 > low=1). -/
theorem determineSeverity_monotone (P Q : List XPost)
    (hs : anyPostHasKeyword shootingKeywords P = anyPostHasKeyword shootingKeywords Q)
    (hc : anyPostHasKeyword criticalKeywords P = anyPostHasKeyword criticalKeywords Q)
    (he : totalReactions P ≤ totalReactions Q) :
    severityOrder (determineSeverity P) ≤ severityOrder (determineSeverity Q) := by
  unfold determineSeverity
  by_cases hP : (P.length == 0) = true
  · simp only [hP, if_true]
    split
    · exact le_refl _
    · exact one_le_severityOrder _
  · by_cases hQ : (Q.length == 0) = true
    · -- Q is empty: its findings are false and its reactions are 0,
      -- so P's cascade also lands on `low`.
      have hQnil : Q = [] := by
        cases Q with
        | nil => rfl
        | cons a t => simp at hQ
      subst hQnil
      have hre : totalReactions P = 0 := Nat.le_zero.mp he
      have hs0 : anyPostHasKeyword shootingKeywords P = false := by
        simpa [anyPostHasKeyword] using hs
      have hc0 : anyPostHasKeyword criticalKeywords P = false := by
        simpa [anyPostHasKeyword] using hc
      simp [hP, hs0, hc0, hre, severityCascade, severityOrder]
    · simp only [hP, hQ, if_false]
      rw [hs, hc]
      exact severityCascade_mono _ _ he

/-- Witness for `determineSeverity_monotone`: two singleton shooting posts
with 100 and 600 likes; the severities are high (rank 3) and critical
(rank 4). -/
theorem determineSeverity_monotone_witness :
    (anyPostHasKeyword shootingKeywords [mkPost "a" "shooting downtown" 0 ⟨100, 0, 0, 0, 0⟩] =
      anyPostHasKeyword shootingKeywords [mkPost "b" "shooting downtown" 0 ⟨600, 0, 0, 0, 0⟩]) ∧
    (anyPostHasKeyword criticalKeywords [mkPost "a" "shooting downtown" 0 ⟨100, 0, 0, 0, 0⟩] =
      anyPostHasKeyword criticalKeywords [mkPost "b" "shooting downtown" 0 ⟨600, 0, 0, 0, 0⟩]) ∧
    totalReactions [mkPost "a" "shooting downtown" 0 ⟨100, 0, 0, 0, 0⟩] ≤
      totalReactions [mkPost "b" "shooting downtown" 0 ⟨600, 0, 0, 0, 0⟩] ∧
    severityOrder (determineSeverity [mkPost "a" "shooting downtown" 0 ⟨100, 0, 0, 0, 0⟩]) ≤
      severityOrder (determineSeverity [mkPost "b" "shooting downtown" 0 ⟨600, 0, 0, 0, 0⟩]) :=
  ⟨by decide, by decide, by decide,
    determineSeverity_monotone _ _ (by decide) (by decide) (by decide)⟩

/-! ## C2: the final merge -/

theorem incidentSortLe_iff (a b : Incident) :
    incidentSortLe a b = true ↔
      (severityOrder b.severity < severityOrder a.severity ∨
        (severityOrder b.severity = severityOrder a.severity ∧
          b.totalEngagement.totalLikes + b.totalEngagement.totalRetweets ≤
            a.totalEngagement.totalLikes + a.totalEngagement.totalRetweets)) := by
  unfold incidentSortLe
  by_cases h : severityOrder b.severity = severityOrder a.severity <;>
    simp [h]

theorem incidentSortLe_trans (a b c : Incident) (hab : incidentSortLe a b = true)
    (hbc : incidentSortLe b c = true) : incidentSortLe a c = true := by
  rw [incidentSortLe_iff] at hab hbc ⊢
  omega

theorem incidentSortLe_total (a b : Incident) :
    (incidentSortLe a b || incidentSortLe b a) = true := by
  simp only [Bool.or_eq_true, incidentSortLe_iff]
  omega

/-- C2: the final incident list of `fetchRealTimeIncidents` is a permutation
of the catalogue incidents concatenated with the live/query incidents (no
cross-deduplication, nothing dropped), arranged in descending order first by
severity rank (critical=4, high=3, medium=2, low=1) and then by total
likes + retweets. -/
theorem finalMerge_spec (hardcodedIncidents incidents : List Incident) :
    (finalMerge hardcodedIncidents incidents).Perm (hardcodedIncidents ++ incidents) ∧
    (finalMerge hardcodedIncidents incidents).Pairwise (fun a b =>
      severityOrder b.severity < severityOrder a.severity ∨
        (severityOrder b.severity = severityOrder a.severity ∧
          b.totalEngagement.totalLikes + b.totalEngagement.totalRetweets ≤
            a.totalEngagement.totalLikes + a.totalEngagement.totalRetweets)) := by
  constructor
  · exact List.mergeSort_perm _ _
  · have hp := List.sorted_mergeSort incidentSortLe_trans incidentSortLe_total
      (hardcodedIncidents ++ incidents)
    exact hp.imp fun hab => (incidentSortLe_iff _ _).mp hab

/-! ## C9: pass-2 attachment is frame-preserving -/

theorem insertFirstMatch_map_eq {α : Type} {pred : IncidentCluster → Bool}
    {upd : IncidentCluster → IncidentCluster} (f : IncidentCluster → α) :
    ∀ {l l' : List IncidentCluster}, insertFirstMatch pred upd l = some l' →
      (∀ c, f (upd c) = f c) → l'.map f = l.map f := by
  intro l
  induction l with
  | nil => intro l' h _; simp [insertFirstMatch] at h
  | cons c rest ih =>
    intro l' h hupd
    rw [insertFirstMatch] at h
    split at h
    · injection h with h2
      subst h2
      simp [hupd]
    · split at h
      case h_1 rest' heq =>
        injection h with h2
        subst h2
        simp [ih heq hupd]
      case h_2 => exact absurd h (by simp)

/-- C9: during pass 2, attaching a fallback post changes only the matched
cluster's member-post list (appending the post) and its topic set (unioned);
its location and most-recent timestamp are untouched — and across a whole
pass-2 run, every cluster's location and timestamp (and the number of
clusters) are exactly those produced by pass 1. -/
theorem pass2_frame :
    (∀ (post : XPost) (postTopics : List String) (c : IncidentCluster),
      (pass2Attach post postTopics c).location = c.location ∧
      (pass2Attach post postTopics c).timestamp = c.timestamp ∧
      (pass2Attach post postTopics c).posts = c.posts ++ [post] ∧
      (pass2Attach post postTopics c).topics = unionTopics c.topics postTopics) ∧
    (∀ (posts : List XPost) (st : List IncidentCluster × List String),
      ((posts.foldl pass2Step st).1.map fun c => (c.location, c.timestamp)) =
        (st.1.map fun c => (c.location, c.timestamp))) := by
  constructor
  · intro post postTopics c
    exact ⟨rfl, rfl, rfl, rfl⟩
  · intro posts
    induction posts with
    | nil => intro st; rfl
    | cons p rest ih =>
      intro st
      rw [List.foldl_cons, ih]
      rw [pass2Step]
      split
      · rfl
      · split
        case h_1 incidents' heq =>
          show ((incidents' : List IncidentCluster).map fun c => (c.location, c.timestamp)) =
            st.1.map fun c => (c.location, c.timestamp)
          exact insertFirstMatch_map_eq (fun c => (c.location, c.timestamp))
            heq (fun c => rfl)
        case h_2 => rfl

/-! ## C10: output clusters are pairwise disjoint by post id -/

/-- All member-post ids of a cluster list, cluster by cluster. -/
def clusterIds (clusters : List IncidentCluster) : List String :=
  (clusters.map fun c => c.posts.map fun p => p.id).flatten

theorem insertFirstMatch_clusterIds {pred : IncidentCluster → Bool}
    {upd : IncidentCluster → IncidentCluster} (post : XPost) :
    ∀ {l l' : List IncidentCluster}, insertFirstMatch pred upd l = some l' →
      (∀ c, (upd c).posts = c.posts ++ [post]) →
      (clusterIds l').Perm (post.id :: clusterIds l) := by
  intro l
  induction l with
  | nil => intro l' h _; simp [insertFirstMatch] at h
  | cons c rest ih =>
    intro l' h hupd
    rw [insertFirstMatch] at h
    split at h
    · injection h with h2
      subst h2
      simp only [clusterIds, List.map_cons, List.flatten_cons, hupd, List.map_append,
        List.append_assoc, List.singleton_append]
      exact List.perm_middle
    · split at h
      case h_1 rest' heq =>
        injection h with h2
        subst h2
        simp only [clusterIds, List.map_cons, List.flatten_cons]
        exact (List.Perm.append_left _ (ih heq hupd)).trans List.perm_middle
      case h_2 => exact absurd h (by simp)

/-- The anchoring invariant: the collected ids are duplicate-free and all of
them are recorded in the `processed` set. -/
def AnchorInv (st : List IncidentCluster × List String) : Prop :=
  (clusterIds st.1).Nodup ∧ ∀ i ∈ clusterIds st.1, i ∈ st.2

theorem anchorInv_attach {st : List IncidentCluster × List String} {post : XPost}
    {incidents' : List IncidentCluster} {pred : IncidentCluster → Bool}
    {upd : IncidentCluster → IncidentCluster}
    (hinv : AnchorInv st) (hc : ¬st.2.contains post.id = true)
    (heq : insertFirstMatch pred upd st.1 = some incidents')
    (hupd : ∀ c, (upd c).posts = c.posts ++ [post]) :
    AnchorInv (incidents', st.2 ++ [post.id]) := by
  obtain ⟨hnd, hsub⟩ := hinv
  have hperm := insertFirstMatch_clusterIds post heq hupd
  have hnotmem : post.id ∉ clusterIds st.1 := by
    intro hmem
    exact hc (by simpa using hsub _ hmem)
  constructor
  · exact (List.nodup_cons.mpr ⟨hnotmem, hnd⟩).perm hperm.symm
  · intro i hi
    have hmem := hperm.mem_iff.mp hi
    simp only [List.mem_cons] at hmem
    rcases hmem with rfl | hi'
    · simp
    · simp [hsub _ hi']

theorem pass1Step_inv {st : List IncidentCluster × List String} {post : XPost}
    (hinv : AnchorInv st) : AnchorInv (pass1Step st post) := by
  rw [pass1Step]
  split
  · exact hinv
  case isFalse hc =>
    split
    · exact hinv
    · split
      case h_1 incidents' heq =>
        exact anchorInv_attach hinv hc heq (fun c => rfl)
      case h_2 =>
        obtain ⟨hnd, hsub⟩ := hinv
        have hnotmem : post.id ∉ clusterIds st.1 := by
          intro hmem
          exact hc (by simpa using hsub _ hmem)
        constructor
        · simp only [clusterIds, List.map_append, List.flatten_append,
            List.map_cons, List.map_nil, List.flatten_cons, List.flatten_nil,
            List.append_nil]
          rw [List.nodup_append]
          refine ⟨hnd, by simp, ?_⟩
          intro a ha
          simp only [List.mem_cons, List.not_mem_nil, or_false]
          intro hEq
          subst hEq
          exact hnotmem ha
        · intro i hi
          simp only [clusterIds, List.map_append, List.flatten_append,
            List.map_cons, List.map_nil, List.flatten_cons, List.flatten_nil,
            List.append_nil, List.mem_append] at hi
          rcases hi with hi | hi
          · simp [hsub _ hi]
          · simp only [List.mem_singleton] at hi
            simp [hi]

theorem pass2Step_inv {st : List IncidentCluster × List String} {post : XPost}
    (hinv : AnchorInv st) : AnchorInv (pass2Step st post) := by
  rw [pass2Step]
  split
  · exact hinv
  case isFalse hc =>
    split
    case h_1 incidents' heq =>
      exact anchorInv_attach hinv hc heq (fun c => rfl)
    case h_2 => exact hinv

theorem foldl_preserves_inv (step : (List IncidentCluster × List String) → XPost →
    (List IncidentCluster × List String))
    (hstep : ∀ st post, AnchorInv st → AnchorInv (step st post)) :
    ∀ (posts : List XPost) (st : List IncidentCluster × List String),
      AnchorInv st → AnchorInv (posts.foldl step st) := by
  intro posts
  induction posts with
  | nil => intro st h; exact h
  | cons p rest ih => intro st h; exact ih _ (hstep _ _ h)

theorem flatten_sublist_of_sublist {α : Type} {L1 L2 : List (List α)}
    (h : L1.Sublist L2) : L1.flatten.Sublist L2.flatten := by
  induction h with
  | slnil => simp
  | cons a _ ih => exact ih.trans (List.sublist_append_right a _)
  | cons₂ a _ ih => exact ih.append_left a

/-- C10: for a batch of posts with pairwise-distinct ids, the clusters
returned by the anchoring engine are pairwise disjoint on post ids and no
cluster repeats an id: every cluster's member-id list is duplicate-free and
the member-id lists of distinct clusters share no id. -/
theorem anchor_clusters_disjoint (posts : List XPost)
    (hids : (posts.map fun p => p.id).Nodup) :
    (∀ c ∈ anchorIncidentsToLocations posts, (c.posts.map fun p => p.id).Nodup) ∧
    ((anchorIncidentsToLocations posts).map fun c => c.posts.map fun p => p.id).Pairwise
      List.Disjoint := by
  have hbase : AnchorInv ([], []) := ⟨List.nodup_nil, by simp [clusterIds]⟩
  have h1 := foldl_preserves_inv pass1Step (fun _ _ h => pass1Step_inv h) posts ([], []) hbase
  have h2 := foldl_preserves_inv pass2Step (fun _ _ h => pass2Step_inv h) posts _ h1
  have hnd : (clusterIds (anchorIncidentsToLocations posts)).Nodup := by
    have hsub : (anchorIncidentsToLocations posts).Sublist
        (posts.foldl pass2Step (posts.foldl pass1Step ([], []))).1 :=
      List.filter_sublist _
    have hsub2 : (clusterIds (anchorIncidentsToLocations posts)).Sublist
        (clusterIds (posts.foldl pass2Step (posts.foldl pass1Step ([], []))).1) :=
      flatten_sublist_of_sublist (hsub.map _)
    exact h2.1.sublist hsub2
  have hc := List.nodup_flatten.mp hnd
  refine ⟨?_, hc.2⟩
  intro c hcmem
  exact hc.1 _ (List.mem_map_of_mem _ hcmem)

/-- Witness for `anchor_clusters_disjoint` on a concrete three-post batch. -/
theorem anchor_clusters_disjoint_witness :
    (([mkPost "x1" "shooting in stanford" 0 ⟨1, 0, 0, 0, 0⟩,
       mkPost "x2" "shooting in stanford" 3600000 ⟨1, 0, 0, 0, 0⟩,
       mkPost "x3" "arrest in san jose" 0 ⟨1, 0, 0, 0, 0⟩].map fun p => p.id).Nodup) ∧
    (∀ c ∈ anchorIncidentsToLocations
        [mkPost "x1" "shooting in stanford" 0 ⟨1, 0, 0, 0, 0⟩,
         mkPost "x2" "shooting in stanford" 3600000 ⟨1, 0, 0, 0, 0⟩,
         mkPost "x3" "arrest in san jose" 0 ⟨1, 0, 0, 0, 0⟩],
      (c.posts.map fun p => p.id).Nodup) ∧
    (((anchorIncidentsToLocations
        [mkPost "x1" "shooting in stanford" 0 ⟨1, 0, 0, 0, 0⟩,
         mkPost "x2" "shooting in stanford" 3600000 ⟨1, 0, 0, 0, 0⟩,
         mkPost "x3" "arrest in san jose" 0 ⟨1, 0, 0, 0, 0⟩]).map
        fun c => c.posts.map fun p => p.id).Pairwise List.Disjoint) :=
  ⟨by decide,
    anchor_clusters_disjoint
      [mkPost "x1" "shooting in stanford" 0 ⟨1, 0, 0, 0, 0⟩,
       mkPost "x2" "shooting in stanford" 3600000 ⟨1, 0, 0, 0, 0⟩,
       mkPost "x3" "arrest in san jose" 0 ⟨1, 0, 0, 0, 0⟩] (by decide)⟩

/-! ## C6: posts more than 24 hours apart -/

theorem pass1Matches_false_of_far {pl : LocationMatch} {tp : List String} {t : Int}
    {c : IncidentCluster} (h : hoursDiffGT24 t c.timestamp = true) :
    pass1Matches pl tp t c = false := by
  unfold pass1Matches
  split_ifs <;> simp_all

theorem pass2Matches_false_of_far {txt : List Char} {tp : List String} {t : Int}
    {c : IncidentCluster} (h : hoursDiffGT24 t c.timestamp = true) :
    pass2Matches txt tp t c = false := by
  unfold pass2Matches
  split_ifs <;> simp_all

theorem insertFirstMatch_none {pred : IncidentCluster → Bool}
    {upd : IncidentCluster → IncidentCluster} (l : List IncidentCluster)
    (h : ∀ c ∈ l, pred c = false) : insertFirstMatch pred upd l = none := by
  induction l with
  | nil => rfl
  | cons c rest ih =>
    rw [insertFirstMatch, h c (List.mem_cons_self c rest),
      ih fun d hd => h d (List.mem_cons_of_mem c hd)]
    simp

/-- C6 counterexample: three posts with identical extracted locations
("Stanford", 0.75) at 0h, 15h and 30h: the middle post advances the
cluster's most-recent timestamp, so the 30h post also joins — the first and
third post are more than 24 hours apart yet land in the same (single)
cluster. -/
theorem c6_counterexample :
    extractPostLocation (mkPost "a6" "shooting reported in stanford" 0 ⟨1, 0, 0, 0, 0⟩) =
      extractPostLocation (mkPost "b6" "shooting reported in stanford" 108000000 ⟨1, 0, 0, 0, 0⟩) ∧
    hoursDiffGT24 (mkPost "a6" "shooting reported in stanford" 0 ⟨1, 0, 0, 0, 0⟩).timestamp
      (mkPost "b6" "shooting reported in stanford" 108000000 ⟨1, 0, 0, 0, 0⟩).timestamp = true ∧
    ((anchorIncidentsToLocations
        [mkPost "a6" "shooting reported in stanford" 0 ⟨1, 0, 0, 0, 0⟩,
         mkPost "c6" "shooting reported in stanford" 54000000 ⟨1, 0, 0, 0, 0⟩,
         mkPost "b6" "shooting reported in stanford" 108000000 ⟨1, 0, 0, 0, 0⟩]).map
      fun c => c.posts.map fun post => post.id) = [["a6", "c6", "b6"]] := by
  refine ⟨by decide, by decide, by decide⟩

/-- C6 (amended): the recency window is tested against the cluster's current
most-recent timestamp, not pairwise between posts, so intermediate posts can
chain two posts more than 24 hours apart into one cluster (see the
counterexample).  What does hold: in a batch consisting of exactly the two
posts, if they are more than 24 hours apart then no output cluster of the
anchoring engine contains them both. -/
theorem anchor_two_posts_far (p q : XPost)
    (h : hoursDiffGT24 p.timestamp q.timestamp = true) :
    ∀ c ∈ anchorIncidentsToLocations [p, q], ¬(p ∈ c.posts ∧ q ∈ c.posts) := by
  have hpq : p ≠ q := by
    intro hEq
    subst hEq
    simp only [hoursDiffGT24, sub_self, Int.natAbs_zero, gt_iff_lt,
      decide_eq_true_eq] at h
    omega
  have hsym : hoursDiffGT24 q.timestamp p.timestamp = true := by
    simp only [hoursDiffGT24, gt_iff_lt, decide_eq_true_eq] at h ⊢
    omega
  unfold anchorIncidentsToLocations
  simp only [List.foldl_cons, List.foldl_nil]
  by_cases hcp : (extractPostLocation p).confidence < 50
  · have e1 : pass1Step ([], []) p = ([], []) := by
      simp [pass1Step, hcp]
    rw [e1]
    by_cases hcq : (extractPostLocation q).confidence < 50
    · have e2 : pass1Step ([], []) q = ([], []) := by
        simp [pass1Step, hcq]
      rw [e2]
      have e3 : pass2Step ([], []) p = ([], []) := by
        simp [pass2Step, insertFirstMatch]
      rw [e3]
      have e4 : pass2Step ([], []) q = ([], []) := by
        simp [pass2Step, insertFirstMatch]
      rw [e4]
      intro c hc
      simp at hc
    · have e2 : pass1Step ([], []) q =
          ([{ posts := [q], location := (extractPostLocation q).location,
              topics := extractTopics q, timestamp := q.timestamp }], [q.id]) := by
        simp [pass1Step, hcq, insertFirstMatch]
      rw [e2]
      by_cases hid : p.id = q.id
      · have e3 : pass2Step
            ([{ posts := [q], location := (extractPostLocation q).location,
                topics := extractTopics q, timestamp := q.timestamp }], [q.id]) p =
            ([{ posts := [q], location := (extractPostLocation q).location,
                topics := extractTopics q, timestamp := q.timestamp }], [q.id]) := by
          simp [pass2Step, hid]
        rw [e3]
        have e4 : pass2Step
            ([{ posts := [q], location := (extractPostLocation q).location,
                topics := extractTopics q, timestamp := q.timestamp }], [q.id]) q =
            ([{ posts := [q], location := (extractPostLocation q).location,
                topics := extractTopics q, timestamp := q.timestamp }], [q.id]) := by
          simp [pass2Step]
        rw [e4]
        intro c hc
        rintro ⟨hp, hq⟩
        simp only [List.mem_filter, List.mem_singleton] at hc
        rcases hc with ⟨rfl, -⟩
        simp only [List.mem_singleton] at hp
        exact hpq hp
      · have hfar : pass2Matches (lowerData p.text) (extractTopics p) p.timestamp
            { posts := [q], location := (extractPostLocation q).location,
              topics := extractTopics q, timestamp := q.timestamp } = false :=
          pass2Matches_false_of_far h
        have e3 : pass2Step
            ([{ posts := [q], location := (extractPostLocation q).location,
                topics := extractTopics q, timestamp := q.timestamp }], [q.id]) p =
            ([{ posts := [q], location := (extractPostLocation q).location,
                topics := extractTopics q, timestamp := q.timestamp }], [q.id]) := by
          rw [pass2Step]
          rw [insertFirstMatch_none _ (by
            intro c hc
            simp only [List.mem_singleton] at hc
            subst hc
            exact hfar)]
          simp [hid]
        rw [e3]
        have e4 : pass2Step
            ([{ posts := [q], location := (extractPostLocation q).location,
                topics := extractTopics q, timestamp := q.timestamp }], [q.id]) q =
            ([{ posts := [q], location := (extractPostLocation q).location,
                topics := extractTopics q, timestamp := q.timestamp }], [q.id]) := by
          simp [pass2Step]
        rw [e4]
        intro c hc
        rintro ⟨hp, hq⟩
        simp only [List.mem_filter, List.mem_singleton] at hc
        rcases hc with ⟨rfl, -⟩
        simp only [List.mem_singleton] at hp
        exact hpq hp
  · have e1 : pass1Step ([], []) p =
        ([{ posts := [p], location := (extractPostLocation p).location,
            topics := extractTopics p, timestamp := p.timestamp }], [p.id]) := by
      simp [pass1Step, hcp, insertFirstMatch]
    rw [e1]
    by_cases hid : q.id = p.id
    · have e2 : pass1Step
          ([{ posts := [p], location := (extractPostLocation p).location,
              topics := extractTopics p, timestamp := p.timestamp }], [p.id]) q =
          ([{ posts := [p], location := (extractPostLocation p).location,
              topics := extractTopics p, timestamp := p.timestamp }], [p.id]) := by
        simp [pass1Step, hid]
      rw [e2]
      have e3 : pass2Step
          ([{ posts := [p], location := (extractPostLocation p).location,
              topics := extractTopics p, timestamp := p.timestamp }], [p.id]) p =
          ([{ posts := [p], location := (extractPostLocation p).location,
              topics := extractTopics p, timestamp := p.timestamp }], [p.id]) := by
        simp [pass2Step]
      rw [e3]
      have e4 : pass2Step
          ([{ posts := [p], location := (extractPostLocation p).location,
              topics := extractTopics p, timestamp := p.timestamp }], [p.id]) q =
          ([{ posts := [p], location := (extractPostLocation p).location,
              topics := extractTopics p, timestamp := p.timestamp }], [p.id]) := by
        simp [pass2Step, hid]
      rw [e4]
      intro c hc
      rintro ⟨hp, hq⟩
      simp only [List.mem_filter, List.mem_singleton] at hc
      rcases hc with ⟨rfl, -⟩
      simp only [List.mem_singleton] at hq
      exact hpq hq.symm
    · have hfar1 : pass1Matches (extractPostLocation q) (extractTopics q) q.timestamp
          { posts := [p], location := (extractPostLocation p).location,
            topics := extractTopics p, timestamp := p.timestamp } = false :=
        pass1Matches_false_of_far hsym
      by_cases hcq : (extractPostLocation q).confidence < 50
      · have e2 : pass1Step
            ([{ posts := [p], location := (extractPostLocation p).location,
                topics := extractTopics p, timestamp := p.timestamp }], [p.id]) q =
            ([{ posts := [p], location := (extractPostLocation p).location,
                topics := extractTopics p, timestamp := p.timestamp }], [p.id]) := by
          simp [pass1Step, hid, hcq]
        rw [e2]
        have e3 : pass2Step
            ([{ posts := [p], location := (extractPostLocation p).location,
                topics := extractTopics p, timestamp := p.timestamp }], [p.id]) p =
            ([{ posts := [p], location := (extractPostLocation p).location,
                topics := extractTopics p, timestamp := p.timestamp }], [p.id]) := by
          simp [pass2Step]
        rw [e3]
        have hfar2 : pass2Matches (lowerData q.text) (extractTopics q) q.timestamp
            { posts := [p], location := (extractPostLocation p).location,
              topics := extractTopics p, timestamp := p.timestamp } = false :=
          pass2Matches_false_of_far hsym
        have e4 : pass2Step
            ([{ posts := [p], location := (extractPostLocation p).location,
                topics := extractTopics p, timestamp := p.timestamp }], [p.id]) q =
            ([{ posts := [p], location := (extractPostLocation p).location,
                topics := extractTopics p, timestamp := p.timestamp }], [p.id]) := by
          rw [pass2Step]
          rw [insertFirstMatch_none _ (by
            intro c hc
            simp only [List.mem_singleton] at hc
            subst hc
            exact hfar2)]
          simp [hid]
        rw [e4]
        intro c hc
        rintro ⟨hp, hq⟩
        simp only [List.mem_filter, List.mem_singleton] at hc
        rcases hc with ⟨rfl, -⟩
        simp only [List.mem_singleton] at hq
        exact hpq hq.symm
      · have e2 : pass1Step
            ([{ posts := [p], location := (extractPostLocation p).location,
                topics := extractTopics p, timestamp := p.timestamp }], [p.id]) q =
            ([{ posts := [p], location := (extractPostLocation p).location,
                topics := extractTopics p, timestamp := p.timestamp },
              { posts := [q], location := (extractPostLocation q).location,
                topics := extractTopics q, timestamp := q.timestamp }], [p.id, q.id]) := by
          rw [pass1Step]
          rw [insertFirstMatch_none _ (by
            intro c hc
            simp only [List.mem_singleton] at hc
            subst hc
            exact hfar1)]
          simp [hid, hcq]
        rw [e2]
        have e3 : pass2Step
            ([{ posts := [p], location := (extractPostLocation p).location,
                topics := extractTopics p, timestamp := p.timestamp },
              { posts := [q], location := (extractPostLocation q).location,
                topics := extractTopics q, timestamp := q.timestamp }], [p.id, q.id]) p =
            ([{ posts := [p], location := (extractPostLocation p).location,
                topics := extractTopics p, timestamp := p.timestamp },
              { posts := [q], location := (extractPostLocation q).location,
                topics := extractTopics q, timestamp := q.timestamp }], [p.id, q.id]) := by
          simp [pass2Step]
        rw [e3]
        have e4 : pass2Step
            ([{ posts := [p], location := (extractPostLocation p).location,
                topics := extractTopics p, timestamp := p.timestamp },
              { posts := [q], location := (extractPostLocation q).location,
                topics := extractTopics q, timestamp := q.timestamp }], [p.id, q.id]) q =
            ([{ posts := [p], location := (extractPostLocation p).location,
                topics := extractTopics p, timestamp := p.timestamp },
              { posts := [q], location := (extractPostLocation q).location,
                topics := extractTopics q, timestamp := q.timestamp }], [p.id, q.id]) := by
          simp [pass2Step]
        rw [e4]
        intro c hc
        rintro ⟨hp, hq⟩
        simp only [List.mem_filter, List.mem_cons, List.mem_singleton,
          List.not_mem_nil, or_false] at hc
        rcases hc with ⟨rfl | rfl, -⟩
        · simp only [List.mem_singleton] at hq
          exact hpq hq.symm
        · simp only [List.mem_singleton] at hp
          exact hpq hp

/-- Witness for `anchor_two_posts_far` on two concrete posts 30 hours
apart. -/
theorem anchor_two_posts_far_witness :
    hoursDiffGT24 (mkPost "w6a" "shooting in stanford" 0 ⟨1, 0, 0, 0, 0⟩).timestamp
      (mkPost "w6b" "shooting in stanford" 108000000 ⟨1, 0, 0, 0, 0⟩).timestamp = true ∧
    ∀ c ∈ anchorIncidentsToLocations
        [mkPost "w6a" "shooting in stanford" 0 ⟨1, 0, 0, 0, 0⟩,
         mkPost "w6b" "shooting in stanford" 108000000 ⟨1, 0, 0, 0, 0⟩],
      ¬(mkPost "w6a" "shooting in stanford" 0 ⟨1, 0, 0, 0, 0⟩ ∈ c.posts ∧
        mkPost "w6b" "shooting in stanford" 108000000 ⟨1, 0, 0, 0, 0⟩ ∈ c.posts) :=
  ⟨by decide,
    anchor_two_posts_far
      (mkPost "w6a" "shooting in stanford" 0 ⟨1, 0, 0, 0, 0⟩)
      (mkPost "w6b" "shooting in stanford" 108000000 ⟨1, 0, 0, 0, 0⟩) (by decide)⟩

/-! ## C4: tier-1 venue keywords dominate -/

/-- If some entry of the first list segment has a keyword hit, the catalogue
scan returns from the first hitting entry of that segment, never reaching the
second segment. -/
theorem scanPlaces_append_left (l1 l2 : List Place) (tl : List Char)
    (hhit : ∃ pl ∈ l1, ∃ kw ∈ pl.keywords, listHasSub tl kw.data = true) :
    ∃ pl ∈ l1, (∃ kw ∈ pl.keywords, listHasSub tl kw.data = true) ∧
      scanPlaces (l1 ++ l2) tl =
        some ⟨pl.name, if pl.priority == 1 then 95 else 75⟩ := by
  induction l1 with
  | nil => simp at hhit
  | cons pl rest ih =>
    by_cases hc : (pl.keywords.any fun kw => listHasSub tl kw.data) = true
    · refine ⟨pl, List.mem_cons_self pl rest, ?_, ?_⟩
      · simpa [List.any_eq_true] using hc
      · rw [List.cons_append, scanPlaces, if_pos hc]
    · have hhit' : ∃ p ∈ rest, ∃ kw ∈ p.keywords, listHasSub tl kw.data = true := by
        rcases hhit with ⟨p, hp, hkw⟩
        rcases List.mem_cons.mp hp with rfl | hp'
        · exact absurd (by simpa [List.any_eq_true] using hkw) hc
        · exact ⟨p, hp', hkw⟩
      rcases ih hhit' with ⟨p, hp, hkw, hscan⟩
      refine ⟨p, List.mem_cons_of_mem pl hp, hkw, ?_⟩
      rw [List.cons_append, scanPlaces, if_neg hc, hscan]

/-- C4: if the lowered post text contains a keyword of a tier-1 (priority-1)
catalogue venue, the Location Extractor returns the name of a tier-1 venue
whose keyword occurs in the text, with confidence 0.95 (95 hundredths) — in
particular ≥ 0.9 — even when a tier-3 city keyword also occurs. -/
theorem extractPostLocation_tier1 (post : XPost)
    (hhit : ∃ pl ∈ tier1Places, ∃ kw ∈ pl.keywords,
      listHasSub (lowerData post.text) kw.data = true) :
    ∃ pl ∈ tier1Places,
      (∃ kw ∈ pl.keywords, listHasSub (lowerData post.text) kw.data = true) ∧
      extractPostLocation post = ⟨pl.name, 95⟩ := by
  rcases scanPlaces_append_left tier1Places tier3Places (lowerData post.text) hhit with
    ⟨pl, hmem, hkw, hscan⟩
  have hp1 : pl.priority = 1 := by
    have : ∀ x ∈ tier1Places, x.priority = 1 := by decide
    exact this pl hmem
  refine ⟨pl, hmem, hkw, ?_⟩
  rw [extractPostLocation]
  have hscan' : scanPlaces specificPlaces (lowerData post.text) =
      some ⟨pl.name, 95⟩ := by
    rw [specificPlaces, hscan, hp1]
    rfl
  rw [hscan']

/-- Witness for `extractPostLocation_tier1`: a text containing the tier-1
keyword "westfield valley fair" together with the tier-3 city "san jose". -/
theorem extractPostLocation_tier1_witness :
    (∃ pl ∈ tier1Places, ∃ kw ∈ pl.keywords,
      listHasSub (lowerData "Shooting at Westfield Valley Fair in San Jose") kw.data = true) ∧
    (∃ pl ∈ tier3Places, ∃ kw ∈ pl.keywords,
      listHasSub (lowerData "Shooting at Westfield Valley Fair in San Jose") kw.data = true) ∧
    ∃ pl ∈ tier1Places,
      (∃ kw ∈ pl.keywords,
        listHasSub (lowerData (mkPost "w4" "Shooting at Westfield Valley Fair in San Jose" 0
          ⟨1, 0, 0, 0, 0⟩).text) kw.data = true) ∧
      extractPostLocation (mkPost "w4" "Shooting at Westfield Valley Fair in San Jose" 0
        ⟨1, 0, 0, 0, 0⟩) = ⟨pl.name, 95⟩ :=
  ⟨by decide, by decide,
    extractPostLocation_tier1
      (mkPost "w4" "Shooting at Westfield Valley Fair in San Jose" 0 ⟨1, 0, 0, 0, 0⟩)
      (by decide)⟩

/-! ## C5: the street-address pattern and the alert guard -/

/-- "Some street-type string occurs (case-insensitively) in `l`". -/
def HasStreetType (l : List Char) : Prop :=
  ∃ lit ∈ streetTypes, (lit.data.map Char.toLower) <:+: (l.map Char.toLower)

theorem hasStreetType_mono {l1 l2 : List Char} (hsub : l1 <:+: l2) :
    HasStreetType l1 → HasStreetType l2 := by
  rintro ⟨lit, hlit, hinf⟩
  exact ⟨lit, hlit, hinf.trans (hsub.map Char.toLower)⟩

theorem matchLiteralCI_spec {lit : String} {l pre rest : List Char}
    (h : matchLiteralCI lit l = some (pre, rest)) :
    (lit.data.map Char.toLower) <+: (l.map Char.toLower) ∧ rest <:+ l := by
  simp only [matchLiteralCI] at h
  split at h
  case isTrue hc =>
    injection h with h2
    have hpre : pre = l.take lit.data.length := by
      have := congrArg Prod.fst h2
      simpa using this.symm
    have hrest : rest = l.drop lit.data.length := by
      have := congrArg Prod.snd h2
      simpa using this.symm
    subst hpre
    subst hrest
    constructor
    · have hmap : (l.take lit.data.length).map Char.toLower =
          lit.data.map Char.toLower := by
        simpa using (Bool.and_eq_true ..).mp hc |>.2
      rw [← hmap, List.map_take]
      exact List.take_prefix _ _
    · exact List.drop_suffix _ _
  case isFalse => exact absurd h (by simp)

theorem matchAltCI_spec {lits : List String} {l pre rest : List Char}
    (h : matchAltCI lits l = some (pre, rest)) :
    ∃ lit ∈ lits, (lit.data.map Char.toLower) <+: (l.map Char.toLower) ∧ rest <:+ l := by
  induction lits with
  | nil => simp [matchAltCI] at h
  | cons s ss ih =>
    rw [matchAltCI] at h
    cases heq : matchLiteralCI s l with
    | some pr =>
      rcases pr with ⟨pre', rest'⟩
      rw [heq] at h
      dsimp only at h
      injection h with h2
      injection h2 with ha hb
      subst ha
      subst hb
      exact ⟨s, List.mem_cons_self s ss, matchLiteralCI_spec heq⟩
    | none =>
      rw [heq] at h
      dsimp only at h
      rcases ih h with ⟨lit, hlit, hspec⟩
      exact ⟨lit, List.mem_cons_of_mem s hlit, hspec⟩

theorem trySuffix_street {pre l1 : List Char} {r : List Char × List Char}
    (h : trySuffix streetTypes pre l1 = some r) : HasStreetType l1 := by
  rw [trySuffix] at h
  split at h
  case h_1 suf rest heq =>
    rcases matchAltCI_spec heq with ⟨lit, hlit, hpre, -⟩
    exact ⟨lit, hlit, hpre.isInfix⟩
  case h_2 => exact absurd h (by simp)

theorem dropWhile_suffix_cons (c : Char) (rest : List Char) (p : Char → Bool) :
    rest.dropWhile p <:+ c :: rest :=
  (List.dropWhile_suffix p).trans (List.suffix_cons c rest)

theorem matchTail_street :
    ∀ (fuel : Nat) (l : List Char) {r : List Char × List Char},
      matchTail fuel l = some r → HasStreetType l := by
  intro fuel
  induction fuel with
  | zero =>
    intro l r h
    simp [matchTail] at h
  | succ n ih =>
    intro l r h
    match l with
    | [] => simp [matchTail] at h
    | c :: rest =>
      rw [matchTail] at h
      split at h
      case isTrue hws =>
        split at h
        case h_1 mid r' heq =>
          split at heq
          case isTrue hlen =>
            have hst := ih _ heq
            exact hasStreetType_mono
              ((List.dropWhile_suffix isAsciiAlpha).trans
                (dropWhile_suffix_cons c rest isWsChar)).isInfix hst
          case isFalse => exact absurd heq (by simp)
        case h_2 =>
          exact hasStreetType_mono (dropWhile_suffix_cons c rest isWsChar).isInfix
            (trySuffix_street h)
      case isFalse => exact absurd h (by simp)

theorem matchTail3_street :
    ∀ (fuel : Nat) (l : List Char) {r : List Char × List Char},
      matchTail3 fuel l = some r → HasStreetType l := by
  intro fuel
  induction fuel with
  | zero =>
    intro l r h
    simp [matchTail3] at h
  | succ n ih =>
    intro l r h
    match l with
    | [] => simp [matchTail3] at h
    | c :: rest =>
      rw [matchTail3] at h
      split at h
      case isTrue hws =>
        split at h
        case h_1 mid r' heq =>
          split at heq
          case isTrue hlen =>
            have hst := ih _ heq
            exact hasStreetType_mono
              ((List.dropWhile_suffix isAsciiAlpha).trans
                (dropWhile_suffix_cons c rest isWsChar)).isInfix hst
          case isFalse => exact absurd heq (by simp)
        case h_2 =>
          split at h
          case h_1 mid r' heq =>
            exact hasStreetType_mono (dropWhile_suffix_cons c rest isWsChar).isInfix
              (trySuffix_street heq)
          case h_2 => exact absurd h (by simp)
      case isFalse => exact absurd h (by simp)

theorem matchAddrCore_street {l : List Char} {r : List Char × List Char}
    (h : matchAddrCore l = some r) : HasStreetType l := by
  rw [matchAddrCore] at h
  split at h
  case isTrue =>
    split at h
    case h_1 c rest heqdrop =>
      split at h
      case isTrue =>
        split at h
        case isTrue =>
          split at h
          case h_1 mid r' heq =>
            have hst := matchTail_street _ _ heq
            have hcons : c :: rest <:+ l := heqdrop ▸ List.dropWhile_suffix isAsciiDigit
            have hsuffix : (rest.dropWhile isWsChar).dropWhile isAsciiAlpha <:+ l :=
              (List.dropWhile_suffix isAsciiAlpha).trans
                ((List.dropWhile_suffix isWsChar).trans
                  ((List.suffix_cons c rest).trans hcons))
            exact hasStreetType_mono hsuffix.isInfix hst
          case h_2 => exact absurd h (by simp)
        case isFalse => exact absurd h (by simp)
      case isFalse => exact absurd h (by simp)
    case h_2 => exact absurd h (by simp)
  case isFalse => exact absurd h (by simp)

theorem matchP1At_street {l : List Char} {cap : List Char}
    (h : matchP1At l = some cap) : HasStreetType l := by
  rw [matchP1At] at h
  split at h
  case h_1 pre l1 heqAlt =>
    obtain ⟨lit, hlit, hpre, hl1⟩ := matchAltCI_spec heqAlt
    split at h
    case h_1 c rest =>
      split at h
      case isTrue =>
        split at h
        case h_1 cap' r' heq =>
          have hst := matchAddrCore_street heq
          have hsuffix : rest.dropWhile isWsChar <:+ l :=
            (List.dropWhile_suffix isWsChar).trans
              ((List.suffix_cons c rest).trans hl1)
          exact hasStreetType_mono hsuffix.isInfix hst
        case h_2 => exact absurd h (by simp)
      case isFalse => exact absurd h (by simp)
    case h_2 => exact absurd h (by simp)
  case h_2 => exact absurd h (by simp)

theorem matchP2At_street {l : List Char} {cap : List Char}
    (h : matchP2At l = some cap) : HasStreetType l := by
  rw [matchP2At] at h
  split at h
  case h_1 cap' r' heq => exact matchAddrCore_street heq
  case h_2 => exact absurd h (by simp)

theorem matchP3At_street {l : List Char} {cap : List Char}
    (h : matchP3At l = some cap) : HasStreetType l := by
  rw [matchP3At] at h
  split at h
  case isTrue =>
    split at h
    case h_1 c rest heqdrop =>
      split at h
      case isTrue =>
        split at h
        case isTrue =>
          split at h
          case h_1 mid r' heq =>
            have hst := matchTail3_street _ _ heq
            have hcons : c :: rest <:+ l := heqdrop ▸ List.dropWhile_suffix isAsciiDigit
            have hsuffix : (rest.dropWhile isWsChar).dropWhile isAsciiAlpha <:+ l :=
              (List.dropWhile_suffix isAsciiAlpha).trans
                ((List.dropWhile_suffix isWsChar).trans
                  ((List.suffix_cons c rest).trans hcons))
            exact hasStreetType_mono hsuffix.isInfix hst
          case h_2 => exact absurd h (by simp)
        case isFalse => exact absurd h (by simp)
      case isFalse => exact absurd h (by simp)
    case h_2 => exact absurd h (by simp)
  case isFalse => exact absurd h (by simp)

theorem scanMatch_suffix {α : Type} {m : List Char → Option α} {r : α} :
    ∀ {l : List Char}, scanMatch m l = some r → ∃ l', l' <:+ l ∧ m l' = some r := by
  intro l
  induction l with
  | nil =>
    intro h
    rw [scanMatch] at h
    split at h
    case h_1 v heq =>
      injection h with h2
      subst h2
      exact ⟨[], List.suffix_refl [], heq⟩
    case h_2 => exact absurd h (by simp)
  | cons c rest ih =>
    intro h
    rw [scanMatch] at h
    split at h
    case h_1 v heq =>
      injection h with h2
      subst h2
      exact ⟨c :: rest, List.suffix_refl _, heq⟩
    case h_2 =>
      rcases ih h with ⟨l', hsuf, hm⟩
      exact ⟨l', hsuf.trans (List.suffix_cons c rest), hm⟩

theorem hasStreetType_of_suffix {l l' : List Char} (hsuf : l' <:+ l) :
    HasStreetType l' → HasStreetType l :=
  hasStreetType_mono hsuf.isInfix

/-- If no street-type string occurs case-insensitively anywhere in the text,
none of the three address patterns can match at any position. -/
theorem addressStage_none_of_no_streetType (text : String)
    (h : ∀ lit ∈ streetTypes, listHasSub (lowerData text) (lowerData lit) = false) :
    addressStage text = none := by
  have hno : ¬HasStreetType text.data := by
    rintro ⟨lit, hlit, hinf⟩
    have := (listHasSub_correct (lowerData text) (lowerData lit)).mpr hinf
    rw [h lit hlit] at this
    exact Bool.false_ne_true this
  have hs1 : scanMatch matchP1At text.data = none := by
    cases hscan : scanMatch matchP1At text.data with
    | none => rfl
    | some cap =>
      rcases scanMatch_suffix hscan with ⟨l', hsuf, hm⟩
      exact absurd (hasStreetType_of_suffix hsuf (matchP1At_street hm)) hno
  have hs2 : scanMatch matchP2At text.data = none := by
    cases hscan : scanMatch matchP2At text.data with
    | none => rfl
    | some cap =>
      rcases scanMatch_suffix hscan with ⟨l', hsuf, hm⟩
      exact absurd (hasStreetType_of_suffix hsuf (matchP2At_street hm)) hno
  have hs3 : scanMatch matchP3At text.data = none := by
    cases hscan : scanMatch matchP3At text.data with
    | none => rfl
    | some cap =>
      rcases scanMatch_suffix hscan with ⟨l', hsuf, hm⟩
      exact absurd (hasStreetType_of_suffix hsuf (matchP3At_street hm)) hno
  simp only [addressStage, hs1, hs2, hs3]

/-- The guard of the address patterns rejects any captured address lacking
"st" whenever "alert" occurs in the lowered text. -/
theorem addressGuard_rejects {textLower address : List Char}
    (halert : listHasSub textLower "alert".data = true)
    (hst : listHasSub (address.map Char.toLower) "st".data = false)
    (hstreet : listHasSub (address.map Char.toLower) "street".data = false) :
    addressGuard textLower address = false := by
  simp [addressGuard, halert, hst, hstreet]

/-- The whitespace-separated word tokens of a string. -/
def textWords (s : String) : List String :=
  ((s.data.splitOnP isWsChar).filter fun w => !w.isEmpty).map String.mk

/-- C5 counterexample: the text "Emergency Alert at 123 Main Station"
contains "Emergency Alert" and none of the street-type tokens as a
whole word (even case-insensitively), yet the street-address pattern fires:
the suffix alternation matches the "St" at the start of "Station", the guard
accepts the capture (it contains "st"), and the extractor returns
("123 Main St", 0.9). -/
theorem c5_counterexample :
    strIncludes "Emergency Alert at 123 Main Station" "Emergency Alert" = true ∧
    (∀ w ∈ textWords "Emergency Alert at 123 Main Station", ∀ lit ∈ streetTypes,
      w.data.map Char.toLower ≠ lit.data.map Char.toLower) ∧
    addressStage "Emergency Alert at 123 Main Station" = some ⟨"123 Main St", 90⟩ ∧
    extractPostLocation (mkPost "c5" "Emergency Alert at 123 Main Station" 0
      ⟨1, 0, 0, 0, 0⟩) = ⟨"123 Main St", 90⟩ := by
  refine ⟨by decide, by decide, by decide, by decide⟩

/-- C5 (amended): (a) if the text contains "Emergency Alert" but no
street-type string occurs in it even as a case-insensitive SUBSTRING, the
street-address stage never produces a result (the whole-word reading of
"no street-type token" is refuted by the counterexample, where "Station"
supplies the "St"); and (b) whenever "alert" occurs in the lowered text, the
guard rejects a captured address that contains neither "st" nor "street". -/
theorem addressStage_guarded (post : XPost) (address : List Char)
    (h1 : strIncludes post.text "Emergency Alert" = true)
    (h2 : ∀ lit ∈ streetTypes, listHasSub (lowerData post.text) (lowerData lit) = false)
    (h3 : listHasSub (lowerData post.text) "alert".data = true)
    (h4 : listHasSub (address.map Char.toLower) "st".data = false)
    (h5 : listHasSub (address.map Char.toLower) "street".data = false) :
    addressStage post.text = none ∧
      addressGuard (lowerData post.text) address = false :=
  ⟨addressStage_none_of_no_streetType post.text h2, addressGuard_rejects h3 h4 h5⟩

/-- Witness for `addressStage_guarded` at a concrete text and capture. -/
theorem addressStage_guarded_witness :
    (strIncludes "Emergency Alert issued downtown" "Emergency Alert" = true ∧
     (∀ lit ∈ streetTypes,
       listHasSub (lowerData "Emergency Alert issued downtown") (lowerData lit) = false) ∧
     listHasSub (lowerData "Emergency Alert issued downtown") "alert".data = true ∧
     listHasSub ("123 Main Avenue".data.map Char.toLower) "st".data = false ∧
     listHasSub ("123 Main Avenue".data.map Char.toLower) "street".data = false) ∧
    addressStage (mkPost "w5" "Emergency Alert issued downtown" 0 ⟨1, 0, 0, 0, 0⟩).text = none ∧
    addressGuard (lowerData (mkPost "w5" "Emergency Alert issued downtown" 0
      ⟨1, 0, 0, 0, 0⟩).text) "123 Main Avenue".data = false :=
  ⟨⟨by decide, by decide, by decide, by decide, by decide⟩,
    addressStage_guarded (mkPost "w5" "Emergency Alert issued downtown" 0 ⟨1, 0, 0, 0, 0⟩)
      "123 Main Avenue".data (by decide) (by decide) (by decide) (by decide) (by decide)⟩

/-! ## C8: the citations invariant of the narrative synthesizer -/

theorem tldrCitations_spec (b1 : Bool) (pp : Option XPost) (b2 : Bool)
    (sp : Option XPost) :
    ((tldrCitations b1 pp b2 sp).map fun cit => cit.id) =
      List.range' 1 (tldrCitations b1 pp b2 sp).length ∧
    ((tldrCitations b1 pp b2 sp).map fun cit => cit.url).Nodup ∧
    (∀ cit ∈ tldrCitations b1 pp b2 sp,
      ∃ q, (pp = some q ∨ sp = some q) ∧ cit.url = q.url) := by
  cases pp <;> cases sp <;> cases b1 <;> cases b2 <;>
    simp [tldrCitations, List.range'] <;>
    (try split_ifs) <;>
    (try simp_all [List.range']) <;>
    first
      | exact ⟨_, Or.inl rfl, rfl⟩
      | exact ⟨_, Or.inr rfl, rfl⟩
      | exact ⟨⟨_, Or.inl rfl, rfl⟩, ⟨_, Or.inr rfl, rfl⟩⟩

theorem mem_of_findOrGet {l : List XPost} {pred : XPost → Bool} {n : Nat} {p : XPost}
    (h : (match l.find? pred with
          | some x => some x
          | none => l[n]?) = some p) : p ∈ l := by
  cases hf : l.find? pred with
  | some x =>
    simp only [hf] at h
    injection h with h2
    subst h2
    exact List.mem_of_find?_eq_some hf
  | none =>
    simp only [hf] at h
    exact List.getElem?_mem h

theorem mem_of_relevant {posts : List XPost} {loc : String} {p : XPost}
    (h : p ∈ (if (((posts.mergeSort tldrSortLe).take 7).filter (locMention loc)).length > 0
        then ((posts.mergeSort tldrSortLe).take 7).filter (locMention loc)
        else (posts.mergeSort tldrSortLe).take 7)) : p ∈ posts := by
  have hsub : p ∈ (posts.mergeSort tldrSortLe).take 7 := by
    split at h
    · exact List.mem_of_mem_filter h
    · exact h
  exact List.mem_mergeSort.mp ((List.take_sublist 7 _).subset hsub)

/-- C8: every citation produced by the narrative synthesizer carries the URL
of one of the cluster's member posts; the citation sequence numbers are
exactly 1, 2, …, k in order (unique and ascending from 1); no URL is cited
twice; and an empty cluster yields exactly the summary
"No information available." with an empty citation list. -/
theorem generateTLDR_citations (posts : List XPost) (incidentLocation : String) :
    (∀ cit ∈ (generateTLDR posts incidentLocation).citations, ∃ p ∈ posts, cit.url = p.url) ∧
    ((generateTLDR posts incidentLocation).citations.map fun cit => cit.id) =
      List.range' 1 (generateTLDR posts incidentLocation).citations.length ∧
    ((generateTLDR posts incidentLocation).citations.map fun cit => cit.url).Nodup ∧
    (posts = [] → generateTLDR posts incidentLocation =
      ⟨"No information available.", []⟩) := by
  by_cases hlen : posts.length = 0
  · have hnil : posts = [] := List.length_eq_zero.mp hlen
    subst hnil
    exact ⟨by simp [generateTLDR], by simp [generateTLDR, List.range'],
      by simp [generateTLDR], fun _ => rfl⟩
  · have hcit : (generateTLDR posts incidentLocation).citations =
        tldrCitations
          ((collectCat whatHappenedKeywords ((posts.mergeSort tldrSortLe).take 7)).length > 0 &&
            ((posts.mergeSort tldrSortLe).take 7).any fun p => lcIncludes p.text "shooting")
          (match (if ((((posts.mergeSort tldrSortLe).take 7).filter
                (locMention incidentLocation)).length > 0)
              then ((posts.mergeSort tldrSortLe).take 7).filter (locMention incidentLocation)
              else (posts.mergeSort tldrSortLe).take 7).find?
                (primaryShootingPred incidentLocation) with
           | some p => some p
           | none => (if ((((posts.mergeSort tldrSortLe).take 7).filter
                (locMention incidentLocation)).length > 0)
              then ((posts.mergeSort tldrSortLe).take 7).filter (locMention incidentLocation)
              else (posts.mergeSort tldrSortLe).take 7)[0]?)
          ((collectCat suspectKeywords ((posts.mergeSort tldrSortLe).take 7)).length > 0)
          (if (collectCat suspectKeywords ((posts.mergeSort tldrSortLe).take 7)).length > 0 then
            match (if ((((posts.mergeSort tldrSortLe).take 7).filter
                  (locMention incidentLocation)).length > 0)
                then ((posts.mergeSort tldrSortLe).take 7).filter (locMention incidentLocation)
                else (posts.mergeSort tldrSortLe).take 7).find? suspectPred with
            | some p => some p
            | none => (if ((((posts.mergeSort tldrSortLe).take 7).filter
                  (locMention incidentLocation)).length > 0)
                then ((posts.mergeSort tldrSortLe).take 7).filter (locMention incidentLocation)
                else (posts.mergeSort tldrSortLe).take 7)[1]?
          else none) := by
      rw [generateTLDR, if_neg hlen]
    rw [hcit]
    obtain ⟨hids, hnodup, hsrc⟩ := tldrCitations_spec _ _ _ _
    refine ⟨?_, hids, hnodup, fun habs => (hlen (by simp [habs])).elim⟩
    intro cit hmem
    obtain ⟨q, hq, hurl⟩ := hsrc cit hmem
    refine ⟨q, ?_, hurl⟩
    rcases hq with hq | hq
    · exact mem_of_relevant (mem_of_findOrGet hq)
    · split at hq
      · exact mem_of_relevant (mem_of_findOrGet hq)
      · exact absurd hq (by simp)

/-- Witness for `generateTLDR_citations` on a concrete two-post cluster. -/
theorem generateTLDR_citations_witness :
    (∀ cit ∈ (generateTLDR
        [mkPost "t1" "Shooting at Stanford, 2 injured" 0 ⟨100, 0, 0, 0, 0⟩,
         mkPost "t2" "Suspect in custody after Stanford shooting, scene cleared" 0
           ⟨50, 0, 0, 0, 0⟩] "Stanford").citations,
      ∃ p ∈ [mkPost "t1" "Shooting at Stanford, 2 injured" 0 ⟨100, 0, 0, 0, 0⟩,
             mkPost "t2" "Suspect in custody after Stanford shooting, scene cleared" 0
               ⟨50, 0, 0, 0, 0⟩], cit.url = p.url) ∧
    ((generateTLDR
        [mkPost "t1" "Shooting at Stanford, 2 injured" 0 ⟨100, 0, 0, 0, 0⟩,
         mkPost "t2" "Suspect in custody after Stanford shooting, scene cleared" 0
           ⟨50, 0, 0, 0, 0⟩] "Stanford").citations.map fun cit => cit.id) =
      List.range' 1 (generateTLDR
        [mkPost "t1" "Shooting at Stanford, 2 injured" 0 ⟨100, 0, 0, 0, 0⟩,
         mkPost "t2" "Suspect in custody after Stanford shooting, scene cleared" 0
           ⟨50, 0, 0, 0, 0⟩] "Stanford").citations.length :=
  ⟨(generateTLDR_citations
      [mkPost "t1" "Shooting at Stanford, 2 injured" 0 ⟨100, 0, 0, 0, 0⟩,
       mkPost "t2" "Suspect in custody after Stanford shooting, scene cleared" 0
         ⟨50, 0, 0, 0, 0⟩] "Stanford").1,
   (generateTLDR_citations
      [mkPost "t1" "Shooting at Stanford, 2 injured" 0 ⟨100, 0, 0, 0, 0⟩,
       mkPost "t2" "Suspect in custody after Stanford shooting, scene cleared" 0
         ⟨50, 0, 0, 0, 0⟩] "Stanford").2.1⟩
